import Mathlib

/-!
Adyen notification reconciliation.

A shallow embedding of `notification/src/handler/notification/notification.handler.js`
(the update planner, the event classifier, the optimistic update loop and the dispatcher) and
of the extension module's `service/web-component-service.js` and
`paymentHandler/make-payment.handler.js`, and theorems about them.

Conventions of the embedding:

* JavaScript values that come from a parsed notification are `Json` values; the result of a
  property read is a `JsValue = Option Json`, where `none` is `undefined`.
* Objects are association lists in insertion order; a property read takes the first entry with
  the key and `delete` removes every entry with the key.
* The two objects the handler mutates in place, the notification and the rows of the
  `adyenEvents` table, are passed in and returned explicitly.
* A thrown exception is the `Except.error` branch; what an exception leaves behind in the
  notification and the table is not part of the result.
* `resources/adyen-events` (the table), `utils/ctp.compareTransactionStates`,
  `utils/hmacValidator`, the configuration, `payment-utils` and the constants of the extension
  module are not part of the sources at hand and are parameters of the functions that use them.
* The store and the HTTP call are given by their answers.
* The calls into lodash and bluebird are embedded by what the library does on the values at
  hand; the order in which the concurrent calls of a batch end is a parameter.
-/

namespace AdyenIntegration

/-! ## JSON values -/

/-- JSON values as produced by `JSON.parse`; numbers are restricted to integers. -/
inductive Json where
  | null : Json
  | bool (b : Bool) : Json
  | num (n : Int) : Json
  | str (s : String) : Json
  | arr (xs : List Json) : Json
  | obj (kvs : List (String × Json)) : Json

/-- The result of evaluating a JavaScript expression: `none` is `undefined`. -/
abbrev JsValue := Option Json

/-- Exceptions the handler can raise. -/
inductive JsError where
  /-- A property read on `undefined` or `null`, a call of something that is no function, or
  the conversion to a string of an object whose `toString` is no function. -/
  | typeError : JsError
  /-- An error thrown by the store client and not caught by the handler. -/
  | storeError (statusCode : Option Int) : JsError
  /-- The error of line 54: a write failed with something other than a 409. -/
  | unexpectedError (paymentId : String) : JsError
  /-- The error of line 62: the retry limit is reached. `currentVersion` is
  `err.body.errors[0].currentVersion`, `none` when that property is `undefined`. -/
  | retryLimitReached (paymentId : String) (versionTried : Nat) (currentVersion : Option Nat)
      (maxRetry : Nat) : JsError
  /-- The error of line 192: the lookup by key failed with something other than a 404. -/
  | fetchFailed (merchantReference : String) : JsError
  deriving DecidableEq

namespace Json

/-- Two hexadecimal digits of a code unit below 256. -/
def hex2 (n : Nat) : String :=
  String.mk [Nat.digitChar (n / 16 % 16), Nat.digitChar (n % 16)]

/-- The escape of one character inside a JSON string (ECMAScript `QuoteJSONString`). -/
def quoteChar (c : Char) : String :=
  if c = '"' then "\\\""
  else if c = '\\' then "\\\\"
  else if c.toNat = 8 then "\\b"
  else if c.toNat = 9 then "\\t"
  else if c.toNat = 10 then "\\n"
  else if c.toNat = 12 then "\\f"
  else if c.toNat = 13 then "\\r"
  else if c.toNat < 32 then "\\u00" ++ hex2 c.toNat
  else String.singleton c

/-- A string as a JSON string literal. -/
def quote (s : String) : String :=
  "\"" ++ String.join (s.toList.map quoteChar) ++ "\""

mutual
/-- The text `JSON.stringify` produces for a parsed JSON value. -/
def stringify : Json → String
  | null => "null"
  | bool true => "true"
  | bool false => "false"
  | num n => toString n
  | str s => quote s
  | arr xs => "[" ++ stringifyElems xs ++ "]"
  | obj kvs => "\x7b" ++ stringifyMembers kvs ++ "\x7d"
/-- The elements of an array, separated by commas. -/
def stringifyElems : List Json → String
  | [] => ""
  | [x] => stringify x
  | x :: y :: rest => stringify x ++ "," ++ stringifyElems (y :: rest)
/-- The members of an object, separated by commas. -/
def stringifyMembers : List (String × Json) → String
  | [] => ""
  | [(k, v)] => quote k ++ ":" ++ stringify v
  | (k, v) :: kv :: rest =>
    quote k ++ ":" ++ stringify v ++ "," ++ stringifyMembers (kv :: rest)
end

/-- The keys of an object; a value that is no object has none. -/
def keys : Json → List String
  | obj kvs => kvs.map Prod.fst
  | _ => []

end Json

/-- The first value stored under `key` in a member list. -/
def lookupKey (key : String) : List (String × Json) → JsValue
  | [] => none
  | (k, v) :: rest => if k = key then some v else lookupKey key rest

/-- The property read `value.key` (or `value[key]`): a `TypeError` on `undefined` and `null`,
the member of an object, and `undefined` on every other value. -/
def getProp (value : JsValue) (key : String) : Except JsError JsValue :=
  match value with
  | none => .error .typeError
  | some .null => .error .typeError
  | some (.obj kvs) => .ok (lookupKey key kvs)
  | some _ => .ok none

/-- The statement `delete value.key` on a held value: a `TypeError` on `null`, the object
without the key, and no change on every other value. -/
def deleteProp (value : Json) (key : String) : Except JsError Json :=
  match value with
  | .null => .error .typeError
  | .obj kvs => .ok (.obj (kvs.filter (fun kv => !decide (kv.1 = key))))
  | v => .ok v

/-- The strict equality `a === b`. Objects and arrays are equal only to themselves; the two
sides of every comparison in the handler come from different parses, hence are different. -/
def strictEq : JsValue → JsValue → Bool
  | none, none => true
  | some .null, some .null => true
  | some (.bool a), some (.bool b) => a == b
  | some (.num a), some (.num b) => a == b
  | some (.str a), some (.str b) => a == b
  | _, _ => false

/-- The truthiness of a value in a condition. -/
def truthy : JsValue → Bool
  | none => false
  | some .null => false
  | some (.bool b) => b
  | some (.num n) => n != 0
  | some (.str s) => s != ""
  | some _ => true

/-- The lodash predicate `_.isNil`. -/
def isNil : JsValue → Bool
  | none => true
  | some .null => true
  | _ => false

/-- The method `toLowerCase`, on the ASCII range. -/
def toLowerCase (s : String) : String := String.mk (s.toList.map Char.toLower)

/-! ## Data model -/

/-- The custom fields of an interface interaction; `notification` is `none` on interactions
written by other modules. -/
structure InteractionFields where
  createdAt : Nat
  status : String
  type : String
  notification : Option String
  deriving DecidableEq

/-- An interface interaction of a payment. -/
structure InterfaceInteraction where
  fields : InteractionFields
  deriving DecidableEq

/-- A transaction of a payment; `interactionId` is `none` when the property is absent. -/
structure Transaction where
  id : String
  type : String
  state : String
  centAmount : Int
  currencyCode : String
  interactionId : Option String
  deriving DecidableEq

/-- A payment as returned by the store. -/
structure Payment where
  id : String
  key : Option String
  version : Nat
  interfaceInteractions : List InterfaceInteraction
  transactions : List Transaction
  deriving DecidableEq

/-- A row of `resources/adyen-events`; `none` is `null`. -/
structure AdyenEvent where
  eventCode : String
  success : Json
  transactionType : Option String
  transactionState : Option String

/-- The object `getTransactionTypeAndStateOrNull` returns, as far as its caller reads it. -/
structure Classification where
  transactionType : Option String
  transactionState : Option String
  deriving DecidableEq

/-- The update actions the planner builds. -/
inductive UpdateAction where
  | addInterfaceInteraction (typeKey typeId : String) (fields : InteractionFields) : UpdateAction
  | changeTransactionState (transactionId : String) (state : Option String) : UpdateAction
  | addTransaction (type : Option String) (currencyCode centAmount : JsValue)
      (state : Option String) (interactionId : JsValue) : UpdateAction

namespace UpdateAction

/-- Whether the action is an `addInterfaceInteraction`. -/
def isAddInterfaceInteraction : UpdateAction → Bool
  | addInterfaceInteraction _ _ _ => true
  | _ => false

/-- Whether the action is an `addTransaction`. -/
def isAddTransaction : UpdateAction → Bool
  | addTransaction _ _ _ _ _ => true
  | _ => false

/-- Whether the action is a `changeTransactionState`. -/
def isChangeTransactionState : UpdateAction → Bool
  | changeTransactionState _ _ => true
  | _ => false

end UpdateAction

/-! ## The event classifier and the update planner -/

/-- The predicate of the `_.find` of line 144:
`e.eventCode === adyenEventCode && e.success === adyenEventSuccess`. -/
def matchesEvent (adyenEventCode adyenEventSuccess : JsValue) (e : AdyenEvent) : Bool :=
  strictEq (some (.str e.eventCode)) adyenEventCode && strictEq (some e.success) adyenEventSuccess

/-- The table after the assignment `adyenEvent.transactionType = transactionType`, where
`adyenEvent` is the row `_.find` returned: the first row that satisfies `p`. -/
def setTransactionType (p : AdyenEvent → Bool) (transactionType : String) :
    List AdyenEvent → List AdyenEvent
  | [] => []
  | e :: rest =>
    if p e then { e with transactionType := some transactionType } :: rest
    else e :: setTransactionType p transactionType rest

/-- The function `getTransactionTypeAndStateOrNull` (lines 139-167). The result is the
transaction type and state of the returned object together with the `adyenEvents` table as the
call leaves it. -/
def getTransactionTypeAndStateOrNull (adyenEvents : List AdyenEvent)
    (notificationRequestItem : JsValue) : Except JsError (Classification × List AdyenEvent) := do
  let adyenEventCode ← getProp notificationRequestItem "eventCode"
  let adyenEventSuccess ← getProp notificationRequestItem "success"
  match adyenEvents.find? (matchesEvent adyenEventCode adyenEventSuccess) with
  | some adyenEvent =>
    if strictEq adyenEventCode (some (.str "CANCEL_OR_REFUND")) then do
      let additionalData ← getProp notificationRequestItem "additionalData"
      let modificationAction ←
        if truthy additionalData then getProp additionalData "modification.action"
        else pure (some Json.null)
      if strictEq modificationAction (some (.str "refund")) then
        pure (⟨some "Refund", adyenEvent.transactionState⟩,
          setTransactionType (matchesEvent adyenEventCode adyenEventSuccess) "Refund" adyenEvents)
      else if strictEq modificationAction (some (.str "cancel")) then
        pure (⟨some "CancelAuthorization", adyenEvent.transactionState⟩,
          setTransactionType (matchesEvent adyenEventCode adyenEventSuccess)
            "CancelAuthorization" adyenEvents)
      else
        pure (⟨adyenEvent.transactionType, adyenEvent.transactionState⟩, adyenEvents)
    else
      pure (⟨adyenEvent.transactionType, adyenEvent.transactionState⟩, adyenEvents)
  | none => pure (⟨none, none⟩, adyenEvents)

/-- The function `getAddInterfaceInteractionUpdateAction` (lines 108-129). `now` is the value
of `new Date()`. The result is the action together with the notification object as the two
`delete` statements leave it. -/
def getAddInterfaceInteractionUpdateAction (now : Nat) (notification : Json) :
    Except JsError (UpdateAction × Json) := do
  let notification ← deleteProp notification "additionalData"
  let notification ← deleteProp notification "reason"
  let notificationRequestItem ← getProp (some notification) "NotificationRequestItem"
  let code ← getProp notificationRequestItem "eventCode"
  let eventCode ←
    if isNil code then pure ""
    else match code with
      | some (.str s) => pure (toLowerCase s)
      | _ => throw JsError.typeError
  pure (.addInterfaceInteraction "ctp-adyen-integration-interaction-notification" "type"
    { createdAt := now, status := eventCode, type := "notification",
      notification := some notification.stringify }, notification)

/-- The function `getChangeTransactionStateUpdateAction` (lines 131-137). -/
def getChangeTransactionStateUpdateAction (transactionId : String)
    (newTransactionState : Option String) : UpdateAction :=
  .changeTransactionState transactionId newTransactionState

/-- The function `getAddTransactionUpdateAction` (lines 169-184). -/
def getAddTransactionUpdateAction (type state : Option String) (amount currency : JsValue)
    (interactionId : JsValue) : UpdateAction :=
  .addTransaction type currency amount state interactionId

/-- The function `calculateUpdateActionsForPayment` (lines 74-106).
`compareTransactionStates` is `ctp.compareTransactionStates`, `now` the value of `new Date()`.
The result is the list of update actions together with the notification object and the
`adyenEvents` table as the call leaves them. `_.isEmpty(oldTransaction)` holds exactly when
`_.find` found nothing: a stored transaction has properties. -/
def calculateUpdateActionsForPayment (compareTransactionStates : String → Option String → Int)
    (now : Nat) (adyenEvents : List AdyenEvent) (payment : Payment) (notification : Json) :
    Except JsError (List UpdateAction × Json × List AdyenEvent) := do
  let notificationRequestItem ← getProp (some notification) "NotificationRequestItem"
  let stringifiedNotification := notification.stringify
  let isNotificationInInterfaceInteraction := payment.interfaceInteractions.any
    (fun interaction => interaction.fields.notification == some stringifiedNotification)
  let (updateActions, notification) ←
    if isNotificationInInterfaceInteraction == false then do
      let (action, notification) ← getAddInterfaceInteractionUpdateAction now notification
      pure ([action], notification)
    else pure ([], notification)
  let (classification, adyenEvents) ←
    getTransactionTypeAndStateOrNull adyenEvents notificationRequestItem
  if classification.transactionType ≠ none then do
    let pspReference ← getProp notificationRequestItem "pspReference"
    match payment.transactions.find?
        (fun transaction => strictEq (transaction.interactionId.map Json.str) pspReference) with
    | none =>
      let amount ← getProp notificationRequestItem "amount"
      let value ← getProp amount "value"
      let currency ← getProp amount "currency"
      pure (updateActions ++ [getAddTransactionUpdateAction classification.transactionType
        classification.transactionState value currency pspReference], notification, adyenEvents)
    | some oldTransaction =>
      if compareTransactionStates oldTransaction.state classification.transactionState > 0 then
        pure (updateActions ++ [getChangeTransactionStateUpdateAction oldTransaction.id
          classification.transactionState], notification, adyenEvents)
      else pure (updateActions, notification, adyenEvents)
  else pure (updateActions, notification, adyenEvents)

/-! ## The optimistic update loop -/

/-- The body of an error response of the store: its status code and, for every entry of its
`errors` array, the `currentVersion` property (`none` when absent). -/
structure ErrorBody where
  statusCode : Int
  errors : List (Option Nat)

/-- An error thrown by the store client. -/
structure StoreError where
  statusCode : Option Int
  body : Option ErrorBody

/-- The answers of the store to the calls of one `updatePaymentWithRepeater` run: `update i` is
the answer to the write issued after `i` conflicts, `fetchById i` the answer to the fetch that
follows conflict number `i + 1`. -/
structure CtpClient where
  update : Nat → Except StoreError Unit
  fetchById : Nat → Except StoreError Payment

/-- A call issued to the store. -/
inductive StoreCall where
  | update (id : String) (version : Nat) (actions : List UpdateAction) : StoreCall
  | fetchById (id : String) : StoreCall

namespace StoreCall

/-- Whether the call is a write. -/
def isUpdate : StoreCall → Bool
  | update _ _ _ => true
  | _ => false

/-- Whether the call is a fetch. -/
def isFetch : StoreCall → Bool
  | fetchById _ => true
  | _ => false

end StoreCall

/-- The local variables of `updatePaymentWithRepeater` at the head of the loop, with the
notification, the table and the calls issued so far. -/
structure LoopState where
  currentPayment : Payment
  currentVersion : Nat
  retryCount : Nat
  notification : Json
  adyenEvents : List AdyenEvent
  calls : List StoreCall

/-- How a run of `updatePaymentWithRepeater` ends: it returns or throws, after the calls listed. -/
structure Run where
  outcome : Except JsError Unit
  calls : List StoreCall

/-- The constant `maxRetry` of line 39. -/
def maxRetry : Nat := 20

/-- The `while (true)` loop of `updatePaymentWithRepeater` (lines 45-71), run for at most `fuel`
iterations; `none` when the iterations are used up. `now i` is the value of `new Date()` in
the iteration that follows `i` conflicts. -/
def updateLoop (compareTransactionStates : String → Option String → Int) (now : Nat → Nat)
    (ctpClient : CtpClient) (maxRetry : Nat) : Nat → LoopState → Option Run
  | 0, _ => none
  | fuel + 1, st =>
    match calculateUpdateActionsForPayment compareTransactionStates (now st.retryCount)
        st.adyenEvents st.currentPayment st.notification with
    | .error e => some ⟨.error e, st.calls⟩
    | .ok (updateActions, notification, adyenEvents) =>
      let calls := st.calls ++ [.update st.currentPayment.id st.currentVersion updateActions]
      match ctpClient.update st.retryCount with
      | .ok _ => some ⟨.ok (), calls⟩
      | .error err =>
        match err.body with
        | none => some ⟨.error .typeError, calls⟩
        | some body =>
          if body.statusCode ≠ 409 then
            some ⟨.error (.unexpectedError st.currentPayment.id), calls⟩
          else
            let retryCount := st.retryCount + 1
            if retryCount > maxRetry then
              match body.errors.head? with
              | none => some ⟨.error .typeError, calls⟩
              | some currentVersion =>
                some ⟨.error (.retryLimitReached st.currentPayment.id st.currentVersion
                  currentVersion maxRetry), calls⟩
            else
              let calls := calls ++ [.fetchById st.currentPayment.id]
              match ctpClient.fetchById st.retryCount with
              | .error e => some ⟨.error (.storeError e.statusCode), calls⟩
              | .ok response =>
                updateLoop compareTransactionStates now ctpClient maxRetry fuel
                  { currentPayment := response, currentVersion := response.version,
                    retryCount := retryCount, notification := notification,
                    adyenEvents := adyenEvents, calls := calls }

/-- The function `updatePaymentWithRepeater` (lines 38-72). -/
def updatePaymentWithRepeater (compareTransactionStates : String → Option String → Int)
    (now : Nat → Nat) (adyenEvents : List AdyenEvent) (payment : Payment) (notification : Json)
    (ctpClient : CtpClient) : Option Run :=
  updateLoop compareTransactionStates now ctpClient maxRetry (maxRetry + 1)
    { currentPayment := payment, currentVersion := payment.version, retryCount := 0,
      notification := notification, adyenEvents := adyenEvents, calls := [] }

/-! ## The notification dispatcher -/

mutual
/-- The string a value is converted to (`ToString`), as a template literal and `toString()`
do it: a string is itself, an array is its elements joined by commas, an object is
`[object Object]`; a `TypeError` for an object whose own `toString` property shadows the
method, since a parsed property is no function. -/
def jsToString : Json → Except JsError String
  | .null => .ok "null"
  | .bool true => .ok "true"
  | .bool false => .ok "false"
  | .num n => .ok (toString n)
  | .str s => .ok s
  | .arr xs => jsJoin xs
  | .obj kvs =>
    match lookupKey "toString" kvs with
    | some _ => .error .typeError
    | none => .ok "[object Object]"
/-- The elements of an array joined by commas (`Array.prototype.join`); a `null` element is
the empty string. -/
def jsJoin : List Json → Except JsError String
  | [] => .ok ""
  | [.null] => .ok ""
  | [x] => jsToString x
  | .null :: y :: rest =>
    match jsJoin (y :: rest) with
    | .ok tail => .ok ("," ++ tail)
    | .error e => .error e
  | x :: y :: rest =>
    match jsToString x with
    | .error e => .error e
    | .ok head =>
      match jsJoin (y :: rest) with
      | .ok tail => .ok (head ++ "," ++ tail)
      | .error e => .error e
end

/-- The property read inside lodash's `_.get`: `undefined` on `undefined`, `null` and every
value that is no object. -/
def safeProp (value : JsValue) (key : String) : JsValue :=
  match value with
  | some (.obj kvs) => lookupKey key kvs
  | _ => none

/-- Whether the value has a property of the name `key` (`key in Object(value)`), for a name
with a dot in it, which only a member of a parsed object can be. -/
def hasMember (value : JsValue) (key : String) : Bool :=
  match value with
  | some (.obj kvs) => (lookupKey key kvs).isSome
  | _ => false

/-- The lodash call `_.get(value, path, defaultValue)` for a path written as property names
joined by dots: when the value has a property of the whole name, that property is read
(`isKey`), otherwise the properties are read one after the other; the result is
`defaultValue` where the value read is `undefined`. -/
def lodashGet (value : JsValue) (path : List String) (defaultValue : Json) : Json :=
  let names :=
    if hasMember value (".".intercalate path) then [".".intercalate path] else path
  match names.foldl safeProp value with
  | some v => v
  | none => defaultValue

/-- The store client as `processNotification` uses it: the answers of `CtpClient` to the calls
of `updatePaymentWithRepeater`, and the answer to the one `fetchByKey` of the run. -/
structure NotificationClient extends CtpClient where
  fetchByKey : Except StoreError Payment

/-- How a run of `processNotification` ends: it returns or throws, after `fetchByKey` was
called with the keys in `lookups` and `updatePaymentWithRepeater` issued `calls`. The calls of
the logger are not part of the result. -/
structure NotificationRun where
  outcome : Except JsError Unit
  lookups : List Json
  calls : List StoreCall

/-- The function `getPaymentByMerchantReference` (lines 186-195): the payment, `none` for
`null` after a 404. The template literal of line 192 converts the reference to a string, which
can throw. -/
def getPaymentByMerchantReference (merchantReference : Json) (ctpClient : NotificationClient) :
    Except JsError (Option Payment) :=
  match ctpClient.fetchByKey with
  | .ok result => .ok (some result)
  | .error err =>
    if err.statusCode = some 404 then .ok none
    else
      match jsToString merchantReference with
      | .ok text => .error (.fetchFailed text)
      | .error e => .error e

/-- The function `processNotification` (lines 16-36). `enableHmacSignature` is
`config.adyen.enableHmacSignature` and `validateHmacSignature` the function of
`utils/hmacValidator`, which returns the error message or `null`; both are not part of the
sources at hand. The template literal of line 35 converts the reference to a string, which
can throw. -/
def processNotification (enableHmacSignature : Bool) (validateHmacSignature : Json → JsValue)
    (compareTransactionStates : String → Option String → Int) (now : Nat → Nat)
    (adyenEvents : List AdyenEvent) (notification : Json) (ctpClient : NotificationClient) :
    Option NotificationRun :=
  if enableHmacSignature && truthy (validateHmacSignature notification) then
    some ⟨.ok (), [], []⟩
  else
    let merchantReference :=
      lodashGet (some notification) ["NotificationRequestItem", "merchantReference"] .null
    if strictEq (some merchantReference) (some .null) then some ⟨.ok (), [], []⟩
    else
      match getPaymentByMerchantReference merchantReference ctpClient with
      | .error e => some ⟨.error e, [merchantReference], []⟩
      | .ok none =>
        match jsToString merchantReference with
        | .ok _ => some ⟨.ok (), [merchantReference], []⟩
        | .error e => some ⟨.error e, [merchantReference], []⟩
      | .ok (some payment) =>
        (updatePaymentWithRepeater compareTransactionStates now adyenEvents payment notification
          ctpClient.toCtpClient).map (fun run => ⟨run.outcome, [merchantReference], run.calls⟩)

/-- What one call of the mapper of `processNotifications` meets: the clock, the table as the
call finds it and the answers of the store to its calls. -/
structure MapperEnv where
  now : Nat → Nat
  adyenEvents : List AdyenEvent
  ctpClient : NotificationClient

/-- The run of the mapper `notification => processNotification(notification, ctpClient)` for
the notification at `index`. -/
def mapperRun (enableHmacSignature : Bool) (validateHmacSignature : Json → JsValue)
    (compareTransactionStates : String → Option String → Int) (envs : Nat → MapperEnv)
    (notifications : List Json) (index : Nat) : Option NotificationRun :=
  match notifications[index]? with
  | some notification =>
    processNotification enableHmacSignature validateHmacSignature compareTransactionStates
      (envs index).now (envs index).adyenEvents notification (envs index).ctpClient
  | none => none

/-- The option `concurrency` of line 13. -/
def concurrency : Nat := 10

/-- The state of bluebird's `Promise.map`: the indices of the mapper calls in flight, the
indices still queued (`_queue`), the indices whose mapper has been called, in the order of the
calls, and the indices whose mapper promise has settled, in the order of settlement. -/
structure MapState where
  inFlight : List Nat
  queue : List Nat
  started : List Nat
  settled : List Nat

namespace MapState

/-- What `Promise.map` does with an array element (`_promiseFulfilled` for an index of the
array): with `limit` calls in flight the index is queued, otherwise the mapper is called. -/
def offer (limit : Nat) (st : MapState) (index : Nat) : MapState :=
  if limit ≤ st.inFlight.length then { st with queue := st.queue ++ [index] }
  else { st with inFlight := st.inFlight ++ [index], started := st.started ++ [index] }

/-- The loop `_drainQueue`: while an index is queued and fewer than `limit` calls are in
flight, the last index of the queue is taken (`queue.pop()`) and its mapper called. -/
def drainQueue (limit : Nat) : Nat → MapState → MapState
  | 0, st => st
  | fuel + 1, st =>
    match st.queue.getLast? with
    | none => st
    | some index =>
      if st.inFlight.length < limit then
        drainQueue limit fuel (offer limit { st with queue := st.queue.dropLast } index)
      else st

/-- The state after the mapper promise of `index` has settled. -/
def settle (st : MapState) (index : Nat) : MapState :=
  { st with inFlight := st.inFlight.erase index, settled := st.settled ++ [index] }

end MapState

/-- The mapper call whose promise settles next. `settleOrder` lists the mapper calls by the
time their promise settles: of the calls in flight the one listed first settles next, and the
calls the list leaves out settle after the listed ones, in the order of their start. -/
def settlesNext (settleOrder inFlight : List Nat) : Option Nat :=
  match settleOrder.find? (fun index => inFlight.contains index) with
  | some index => some index
  | none => inFlight.head?

/-- How `processNotifications` ends: it returns (no value) or throws; `states` are the states
of `Promise.map` from the first calls of the mapper on, one more for every mapper promise that
has settled, and `final` is the last of them. -/
structure BatchRun where
  outcome : Except JsError Unit
  states : List MapState
  final : MapState

/-- The settlement of `Promise.map(items, mapper, { concurrency: limit })` for `length` items
from the state `st` on, over at most `fuel` settled mapper promises. The promise of the map is
fulfilled when every mapper promise is fulfilled; it is rejected, with the same reason, as soon
as a mapper promise is rejected, and calls the mapper no more after that. A fulfilled mapper
promise frees a place for a queued index. `none` when the fuel is used up or nothing is in
flight while an item is missing. -/
def promiseMapLoop (limit : Nat) (mapper : Nat → Option NotificationRun)
    (settleOrder : List Nat) (length : Nat) : Nat → MapState → List MapState → Option BatchRun
  | 0, _, _ => none
  | fuel + 1, st, states =>
    if length ≤ st.settled.length then some ⟨.ok (), states, st⟩
    else
      match settlesNext settleOrder st.inFlight with
      | none => none
      | some index =>
        match mapper index with
        | none => none
        | some run =>
          match run.outcome with
          | .error e => some ⟨.error e, states ++ [st.settle index], st.settle index⟩
          | .ok _ =>
            promiseMapLoop limit mapper settleOrder length fuel
              ((st.settle index).drainQueue limit (st.settle index).queue.length)
              (states ++ [(st.settle index).drainQueue limit (st.settle index).queue.length])

/-- The function `processNotifications` (lines 10-14): `Promise.map` over the notifications
with the mapper `notification => processNotification(notification, ctpClient)` and the option
`concurrency: 10`; the `await` throws the reason of a rejection, and the function returns no
value. The mapper is called for the array elements in their order while fewer than 10 calls
are in flight; the other indices are queued. -/
def processNotifications (enableHmacSignature : Bool) (validateHmacSignature : Json → JsValue)
    (compareTransactionStates : String → Option String → Int) (envs : Nat → MapperEnv)
    (settleOrder : List Nat) (notifications : List Json) : Option BatchRun :=
  let st := (List.range notifications.length).foldl (MapState.offer concurrency) ⟨[], [], [], []⟩
  promiseMapLoop concurrency
    (mapperRun enableHmacSignature validateHmacSignature compareTransactionStates envs
      notifications)
    settleOrder notifications.length (notifications.length + 1) st [st]

/-! ## The extension module: `web-component-service.js` and `make-payment.handler.js` -/

/-- The members of an object after the assignment of `v` to the property `key`: the value is
replaced in place, a new property comes last. -/
def setMember (key : String) (v : Json) : List (String × Json) → List (String × Json)
  | [] => [(key, v)]
  | (k, x) :: rest => if k = key then (k, v) :: rest else (k, x) :: setMember key v rest

/-- The assignment `value.key = v` on a held value: a `TypeError` on `null`, the object with
the property set, and no change on a primitive (the module is not in strict mode) and on an
array, whose JSON form and index properties the assignment leaves as they are. -/
def setProp (value : Json) (key : String) (v : Json) : Except JsError Json :=
  match value with
  | .null => .error .typeError
  | .obj kvs => .ok (.obj (setMember key v kvs))
  | other => .ok other

/-- The method call `value.toString()`: a `TypeError` on `undefined` and `null` and on an
object whose own `toString` property shadows the method (also as an element of an array);
otherwise the string form. -/
def toStringMethod (value : JsValue) : Except JsError String :=
  match value with
  | none => .error .typeError
  | some .null => .error .typeError
  | some (.obj kvs) =>
    match lookupKey "toString" kvs with
    | some _ => .error .typeError
    | none => .ok "[object Object]"
  | some v => jsToString v

/-- The part of `config.adyen` the service reads. -/
structure AdyenConfig where
  apiBaseUrl : String
  legacyApiBaseUrl : String
  merchantAccount : String
  apiKey : String

/-- The part of `package.json` the service reads. -/
structure PackageJson where
  name : String
  version : String
  authorName : String

/-- The request `buildRequest` hands to `fetch`. -/
structure HttpRequest where
  method : String
  body : String
  headers : List (String × String)

/-- What the awaited `fetch(url, request)` and `response.json()` come to: one of them throws
(`error` is what `serializeError` makes of the thrown value), or the body is parsed. -/
inductive FetchOutcome where
  | rejected (error : Json) : FetchOutcome
  | resolved (responseBody : Json) : FetchOutcome

/-- A value thrown inside `fetchAsync`: an error the code itself raises, or the error of the
HTTP call in its serialized form. -/
inductive FetchError where
  | raised (e : JsError) : FetchError
  | external (serialized : Json) : FetchError

/-- The function `extendRequestObjWithApplicationInfo` (lines 35-47): the request object with
`applicationInfo` set. -/
def extendRequestObjWithApplicationInfo (packageJson : PackageJson) (requestObj : Json) :
    Except JsError Json :=
  setProp requestObj "applicationInfo"
    (.obj [("merchantApplication",
        .obj [("name", .str packageJson.name), ("version", .str packageJson.version)]),
      ("externalPlatform",
        .obj [("name", .str "commercetools"), ("integrator", .str packageJson.authorName)])])

/-- The function `buildRequest` (lines 68-81): the HTTP request together with the request
object as the assignment of line 71 leaves it. -/
def buildRequest (config : AdyenConfig) (requestObj : Json) :
    Except JsError (HttpRequest × Json) := do
  let merchantAccount ← getProp (some requestObj) "merchantAccount"
  let requestObj ←
    if !truthy merchantAccount then
      setProp requestObj "merchantAccount" (.str config.merchantAccount)
    else pure requestObj
  pure ({ method := "POST", body := requestObj.stringify,
          headers := [("Content-Type", "application/json"), ("X-Api-Key", config.apiKey)] },
    requestObj)

/-- The function `fetchAsync` (lines 59-66): the response body without `additionalData`, or
the value thrown, together with the request object as `buildRequest` leaves it. -/
def fetchAsync (config : AdyenConfig) (fetch : String → HttpRequest → FetchOutcome)
    (url : String) (requestObj : Json) : Except FetchError Json × Json :=
  match buildRequest config requestObj with
  | .error e => (.error (.raised e), requestObj)
  | .ok (request, requestObj) =>
    match fetch url request with
    | .rejected error => (.error (.external error), requestObj)
    | .resolved responseBody =>
      match deleteProp responseBody "additionalData" with
      | .error e => (.error (.raised e), requestObj)
      | .ok responseBody => (.ok responseBody, requestObj)

/-- The function `callAdyen` (lines 49-57): the pair `{ request, response }`. `serializeError`
is the function of the package `serialize-error`, applied to the errors the code raises. -/
def callAdyen (serializeError : JsError → Json) (config : AdyenConfig)
    (fetch : String → HttpRequest → FetchOutcome) (url : String) (request : Json) :
    Except JsError (Json × Json) :=
  match fetchAsync config fetch url request with
  | (.ok response, request) => .ok (request, response)
  | (.error (.raised e), request) => .ok (request, serializeError e)
  | (.error (.external serialized), request) => .ok (request, serialized)

/-- The function `makePayment` (lines 13-16). -/
def makePayment (serializeError : JsError → Json) (config : AdyenConfig)
    (packageJson : PackageJson) (fetch : String → HttpRequest → FetchOutcome)
    (makePaymentRequestObj : Json) : Except JsError (Json × Json) := do
  let requestObj ← extendRequestObjWithApplicationInfo packageJson makePaymentRequestObj
  callAdyen serializeError config fetch (config.apiBaseUrl ++ "/payments") requestObj

/-- The payment object as `execute` reads it: `key`, `custom.fields.makePaymentRequest` and
`amountPlanned`. -/
structure PaymentObject where
  key : JsValue
  makePaymentRequest : String
  centAmount : JsValue
  currencyCode : JsValue

/-- The functions of `./payment-utils` that `execute` calls; the module is not part of the
sources at hand. `createAddTransactionActionByResponse` gives `none` where it returns a falsy
value. -/
structure PaymentUtils (α : Type) where
  createAddInterfaceInteractionAction : Json → Json → String → α
  createSetCustomFieldAction : String → Json → α
  createAddTransactionActionByResponse : JsValue → JsValue → Json → Option α

/-- The constants of `../config/constants` that `execute` reads; the module is not part of
the sources at hand. -/
structure Constants where
  CTP_INTERACTION_TYPE_MAKE_PAYMENT : String
  CTP_CUSTOM_FIELD_MAKE_PAYMENT_RESPONSE : String

/-- An action of the list `execute` returns: one built by `payment-utils`, or the `setKey`
action of lines 16-19. -/
inductive PaymentAction (α : Type) where
  | built (action : α) : PaymentAction α
  | setKey (key : String) : PaymentAction α

/-- The function `execute` of `make-payment.handler.js` (lines 5-33): the `actions` of the
object it returns. `jsonParse` is `JSON.parse`. -/
def execute {α : Type} (jsonParse : String → Except JsError Json)
    (serializeError : JsError → Json) (config : AdyenConfig) (packageJson : PackageJson)
    (fetch : String → HttpRequest → FetchOutcome) (pU : PaymentUtils α) (c : Constants)
    (paymentObject : PaymentObject) : Except JsError (List (PaymentAction α)) := do
  let makePaymentRequestObj ← jsonParse paymentObject.makePaymentRequest
  let (request, response) ←
    makePayment serializeError config packageJson fetch makePaymentRequestObj
  let actions : List (PaymentAction α) :=
    [.built (pU.createAddInterfaceInteractionAction request response
        c.CTP_INTERACTION_TYPE_MAKE_PAYMENT),
      .built (pU.createSetCustomFieldAction c.CTP_CUSTOM_FIELD_MAKE_PAYMENT_RESPONSE response)]
  let actions ←
    if !truthy paymentObject.key then do
      let reference ← getProp (some request) "reference"
      let key ← toStringMethod reference
      pure (actions ++ [.setKey key])
    else pure actions
  match pU.createAddTransactionActionByResponse paymentObject.centAmount
      paymentObject.currencyCode response with
  | some addTransactionAction => pure (actions ++ [.built addTransactionAction])
  | none => pure actions

/-! ## Specification-level definitions -/

open Json

/-- Modelled from the spec: the rank of a transaction state in the order of section 3
("non-final < final states"), for the states of the store: `Initial < Pending < Success <
Failure`. The function `utils/ctp.compareTransactionStates` that holds the order is not part of
the sources at hand. -/
def stateRank : String → Option Int
  | "Initial" => some 0
  | "Pending" => some 1
  | "Success" => some 2
  | "Failure" => some 3
  | _ => none

/-- Modelled from the spec: a comparison of transaction states that is positive exactly when
the new state is strictly more final than the current one (section 3); it stands for the absent
`utils/ctp.compareTransactionStates` in the examples. -/
def stateRankCompare (currentState : String) (newState : Option String) : Int :=
  match stateRank currentState, newState.bind stateRank with
  | some a, some b => b - a
  | _, _ => 0

/-- A mapping table with three rows, for the examples; the shape of a row is that of section 3
(`EventMappingEntry`). -/
def sampleAdyenEvents : List AdyenEvent :=
  [ ⟨"AUTHORISATION", .str "true", some "Authorization", some "Success"⟩,
    ⟨"AUTHORISATION", .str "false", some "Authorization", some "Failure"⟩,
    ⟨"CANCEL_OR_REFUND", .str "true", some "CancelAuthorization", some "Success"⟩ ]

/-- The string a JavaScript value is, if it is one. -/
def jsonAsString : JsValue → Option String
  | some (.str s) => some s
  | _ => none

/-- The integer a JavaScript value is, if it is one. -/
def jsonAsInt : JsValue → Option Int
  | some (.num n) => some n
  | _ => none

/-- The effect of one update action on a payment in the store: the interaction is appended with
the fields of the action, the transaction is appended (under the id `newId` the store gives it),
the state of the transaction with the given id is replaced. `none` when the store rejects the
action because a required field is no string or number. -/
def applyUpdateAction (newId : String) (payment : Payment) : UpdateAction → Option Payment
  | .addInterfaceInteraction _ _ fields =>
    some { payment with interfaceInteractions := payment.interfaceInteractions ++ [⟨fields⟩] }
  | .changeTransactionState transactionId state =>
    state.map fun s => { payment with
      transactions := payment.transactions.map
        (fun t => if t.id = transactionId then { t with state := s } else t) }
  | .addTransaction type currencyCode centAmount state interactionId =>
    match type, state, jsonAsInt centAmount, jsonAsString currencyCode, interactionId with
    | some ty, some st, some amount, some currency, none =>
      some { payment with transactions := payment.transactions ++
        [⟨newId, ty, st, amount, currency, none⟩] }
    | some ty, some st, some amount, some currency, some (.str i) =>
      some { payment with transactions := payment.transactions ++
        [⟨newId, ty, st, amount, currency, some i⟩] }
    | _, _, _, _, _ => none

/-- The effect of a successful write of a list of update actions: the actions in order, then
the version advanced by one. -/
def applyUpdateActions (newId : String) (payment : Payment) :
    List UpdateAction → Option Payment
  | [] => some { payment with version := payment.version + 1 }
  | a :: rest => (applyUpdateAction newId payment a).bind (applyUpdateActions newId · rest)

/-- A payment without interactions and transactions, for the examples. -/
def emptyPayment : Payment := ⟨"id1", some "k", 1, [], []⟩

/-- The item of an authorisation notification, for the examples. -/
def authorisationItem : List (String × Json) :=
  [("eventCode", .str "AUTHORISATION"), ("success", .str "true"),
    ("pspReference", .str "p1"),
    ("amount", .obj [("value", .num 100), ("currency", .str "EUR")])]

/-- A notification of the inbound shape of section 6, for the examples. -/
def authorisationNotification : Json :=
  .obj [("NotificationRequestItem", .obj authorisationItem)]

/-- A notification that carries a `reason` property next to its `NotificationRequestItem`:
one of the two properties `getAddInterfaceInteractionUpdateAction` deletes. -/
def replayNotification : Json :=
  .obj [("NotificationRequestItem", .obj authorisationItem), ("reason", .str "x")]

/-- A notification of the inbound shape whose item carries `additionalData` and `reason`. -/
def sensitiveNotification : Json :=
  .obj [("NotificationRequestItem", .obj [("eventCode", .str "AUTHORISATION"),
    ("additionalData", .obj [("cardSummary", .str "1111")]), ("reason", .str "r")])]

/-- The notification object after the two `delete` statements of lines 110-111. -/
def stripSensitive : Json → Json
  | .obj kvs => .obj ((kvs.filter (fun kv => !decide (kv.1 = "additionalData"))).filter
      (fun kv => !decide (kv.1 = "reason")))
  | v => v

/-- The `status` of the interaction `getAddInterfaceInteractionUpdateAction` builds for an
`eventCode` (lines 113-114): the empty string for `undefined` and `null`, the lower-cased code
for a string, and `none` where `toLowerCase` is no function. -/
def statusOf : JsValue → Option String
  | none => some ""
  | some .null => some ""
  | some (.str s) => some (toLowerCase s)
  | _ => none

/-- The first step of the planner (lines 79-83): the interaction to log, if any, and the
notification object afterwards. -/
def interactionStep (now : Nat) (payment : Payment) (notification : Json) :
    Except JsError (List UpdateAction × Json) :=
  if payment.interfaceInteractions.any
      (fun interaction => interaction.fields.notification == some notification.stringify) then
    .ok ([], notification)
  else
    (getAddInterfaceInteractionUpdateAction now notification).map (fun r => ([r.1], r.2))

/-- The second step of the planner (lines 89-104): the transaction action, if any. -/
def transactionStep (compareTransactionStates : String → Option String → Int)
    (payment : Payment) (notificationRequestItem : JsValue) (classification : Classification) :
    Except JsError (List UpdateAction) :=
  if classification.transactionType = none then .ok []
  else
    match getProp notificationRequestItem "pspReference" with
    | .error e => .error e
    | .ok pspReference =>
      match payment.transactions.find?
          (fun transaction => strictEq (transaction.interactionId.map Json.str) pspReference) with
      | none =>
        match getProp notificationRequestItem "amount" with
        | .error e => .error e
        | .ok amount =>
          match getProp amount "value" with
          | .error e => .error e
          | .ok value =>
            match getProp amount "currency" with
            | .error e => .error e
            | .ok currency =>
              .ok [.addTransaction classification.transactionType currency value
                classification.transactionState pspReference]
      | some oldTransaction =>
        if compareTransactionStates oldTransaction.state classification.transactionState > 0 then
          .ok [.changeTransactionState oldTransaction.id classification.transactionState]
        else .ok []

/-- Whether an interaction with the serialized notification is recorded on the payment
(lines 79-81). -/
def isLogged (payment : Payment) (notification : Json) : Bool :=
  payment.interfaceInteractions.any
    (fun interaction => interaction.fields.notification == some notification.stringify)

/-- The action `getAddInterfaceInteractionUpdateAction` builds for a notification whose status
tag is `status`. -/
def loggingAction (now : Nat) (status : String) (notification : Json) : UpdateAction :=
  .addInterfaceInteraction "ctp-adyen-integration-interaction-notification" "type"
    ⟨now, status, "notification", some (stripSensitive notification).stringify⟩

/-- The item of a cancel-or-refund notification whose `modification.action` is `action`. -/
def cancelOrRefundItem (action : String) : Json :=
  .obj [("eventCode", .str "CANCEL_OR_REFUND"), ("success", .str "true"),
    ("pspReference", .str "p2"), ("additionalData", .obj [("modification.action", .str action)])]

/-- The item of a cancel-or-refund notification without `additionalData`. -/
def bareCancelOrRefundItem : Json :=
  .obj [("eventCode", .str "CANCEL_OR_REFUND"), ("success", .str "true"),
    ("pspReference", .str "p3")]

/-- A notification whose event has no row in `sampleAdyenEvents`. -/
def reportNotification : Json :=
  .obj [("NotificationRequestItem", .obj [("eventCode", .str "REPORT_AVAILABLE"),
    ("success", .str "true"), ("pspReference", .str "p4")])]

/-- A payment with a pending transaction for the interaction `p1`. -/
def pendingPayment : Payment :=
  ⟨"id1", some "k", 3, [], [⟨"t1", "Authorization", "Pending", 100, "EUR", some "p1"⟩]⟩

/-- The number of writes among the calls. -/
def countUpdates (calls : List StoreCall) : Nat := calls.countP StoreCall.isUpdate

/-- The number of fetches among the calls. -/
def countFetches (calls : List StoreCall) : Nat := calls.countP StoreCall.isFetch

/-- A 409 answer of the store that reports `currentVersion`. -/
def conflict (currentVersion : Nat) : StoreError :=
  ⟨some 409, some ⟨409, [some currentVersion]⟩⟩

/-- A store that answers every write with a conflict and every fetch with `payment`. -/
def conflictingClient (payment : Payment) : CtpClient :=
  ⟨fun i => .error (conflict (payment.version + i)), fun _ => .ok payment⟩

/-- The calls of a run that meets `k` conflicts from the state after `j` conflicts on: for each
conflict the write and the fetch that follows it, then the last write. `snapshots i` is the
payment the loop holds after `i` conflicts and `plans i` the plan computed from it. -/
def conflictTrace (snapshots : Nat → Payment) (plans : Nat → List UpdateAction) :
    Nat → Nat → List StoreCall
  | j, 0 => [.update (snapshots j).id (snapshots j).version (plans j)]
  | j, k + 1 =>
    .update (snapshots j).id (snapshots j).version (plans j) :: .fetchById (snapshots j).id
      :: conflictTrace snapshots plans (j + 1) k

/-- Whether the store error is a 409 conflict (line 53). -/
def StoreError.isConflict (err : StoreError) : Bool :=
  match err.body with
  | some body => body.statusCode == 409
  | none => false

/-- The payment `emptyPayment` as the store returns it after another writer added a pending
transaction for the interaction `p1`. -/
def refetchedPayment : Payment :=
  ⟨"id1", some "k", 2, [], [⟨"t1", "Authorization", "Pending", 100, "EUR", some "p1"⟩]⟩

/-- A store that answers the first write with a conflict, the second with success, and the
fetch with `refetchedPayment`. -/
def oneConflictClient : CtpClient :=
  ⟨fun i => if i = 0 then .error (conflict 2) else .ok (), fun _ => .ok refetchedPayment⟩

/-- The action without the value of `new Date()`. -/
def UpdateAction.withoutTimestamp : UpdateAction → UpdateAction
  | .addInterfaceInteraction typeKey typeId fields =>
    .addInterfaceInteraction typeKey typeId { fields with createdAt := 0 }
  | a => a

/-- A payment on which the stripped form of `replayNotification` is logged. -/
def loggedPayment : Payment :=
  ⟨"id1", some "k", 2,
    [⟨⟨7, "authorisation", "notification", some authorisationNotification.stringify⟩⟩],
    [⟨"t1", "Authorization", "Success", 100, "EUR", some "p1"⟩]⟩

/-- A store that answers every write with a 500. -/
def failingClient : CtpClient :=
  ⟨fun _ => .error ⟨some 500, some ⟨500, []⟩⟩, fun _ => .ok emptyPayment⟩

/-- The shape of a plan: at most one `addInterfaceInteraction`, then at most one transaction
action, an `addTransaction` or a `changeTransactionState`. -/
def PlanShape (acts : List UpdateAction) : Prop :=
  ∃ logging transaction : List UpdateAction, acts = logging ++ transaction ∧
    (logging = [] ∨ ∃ typeKey typeId fields,
      logging = [.addInterfaceInteraction typeKey typeId fields]) ∧
    (transaction = [] ∨
      (∃ type currencyCode centAmount state interactionId,
        transaction = [.addTransaction type currencyCode centAmount state interactionId]) ∨
      (∃ transactionId state, transaction = [.changeTransactionState transactionId state]))

/-- A notification with the merchant reference `k` whose event has no row in
`sampleAdyenEvents`. -/
def referencedNotification : Json :=
  .obj [("NotificationRequestItem", .obj [("eventCode", .str "REPORT_AVAILABLE"),
    ("success", .str "true"), ("pspReference", .str "p4"), ("merchantReference", .str "k")])]

/-- A store that answers every write with success. -/
def acceptingClient : CtpClient :=
  ⟨fun _ => .ok (), fun _ => .ok emptyPayment⟩

/-- The mapper calls of a batch: the store fails the write of the first notification with a
500 and accepts the writes of the others. -/
def batchEnvs (i : Nat) : MapperEnv :=
  if i = 0 then ⟨fun _ => 0, sampleAdyenEvents, ⟨failingClient, .ok emptyPayment⟩⟩
  else ⟨fun _ => 0, sampleAdyenEvents, ⟨acceptingClient, .ok emptyPayment⟩⟩

/-- A configuration of the service, for the examples. -/
def sampleConfig : AdyenConfig := ⟨"https://adyen.test", "https://legacy.test", "Acct", "secret"⟩

/-- The package data, for the examples. -/
def samplePackage : PackageJson := ⟨"ext", "1.0.0", "author"⟩

/-- The HTTP request `buildRequest` makes of a request object under `config`. -/
def httpRequestOf (config : AdyenConfig) (requestObj : Json) : HttpRequest :=
  { method := "POST", body := requestObj.stringify,
    headers := [("Content-Type", "application/json"), ("X-Api-Key", config.apiKey)] }

/-- A `payment-utils` whose actions are the names of the functions that build them, for the
examples; it builds an add-transaction action for every response. -/
def namedUtils : PaymentUtils String :=
  ⟨fun _ _ _ => "addInterfaceInteraction", fun _ _ => "setCustomField",
    fun _ _ _ => some "addTransaction"⟩

/-- A store whose writes fail with an error that carries no response body, as a failure of
the connection does. -/
def bodylessClient : CtpClient :=
  ⟨fun _ => .error ⟨none, none⟩, fun _ => .ok emptyPayment⟩

/-- The invariant of the scheduling state of `Promise.map` over a batch of `n` elements under
the concurrency `limit`: no more than `limit` calls are in flight, a call begun is in flight
or has ended, and the indices begun and queued are those of the batch, each once. -/
structure MapInv (limit n : Nat) (st : MapState) : Prop where
  bound : st.inFlight.length ≤ limit
  count : st.settled.length + st.inFlight.length = st.started.length
  perm : (st.started ++ st.queue).Perm (List.range n)
  sub : ∀ i ∈ st.inFlight, i ∈ st.started
  cover : ∀ i ∈ st.started, i ∈ st.settled ∨ i ∈ st.inFlight

/-- An index waits in the queue only while `limit` calls are in flight. -/
def MapState.Saturated (limit : Nat) (st : MapState) : Prop :=
  st.queue ≠ [] → limit ≤ st.inFlight.length

/-- The mapper call of index `j` ends without an error. -/
def Fulfils (mapper : Nat → Option NotificationRun) (j : Nat) : Prop :=
  ∃ run, mapper j = some run ∧ run.outcome = .ok ()

/-! ## Theorems -/

theorem lookupKey_filter_ne {k key : String} (h : k ≠ key) (kvs : List (String × Json)) :
    lookupKey k (kvs.filter (fun kv => !decide (kv.1 = key))) = lookupKey k kvs := by
  induction kvs with
  | nil => rfl
  | cons kv rest ih =>
    obtain ⟨k', v⟩ := kv
    by_cases hk : k' = key
    · have hne : ¬ k' = k := fun e => h (e ▸ hk)
      rw [List.filter_cons_of_neg (by simpa using hk), ih]
      simp only [lookupKey, if_neg hne]
    · rw [List.filter_cons_of_pos (by simpa using hk)]
      simp only [lookupKey, ih]

theorem getProp_stripSensitive (n : Json) :
    getProp (some (stripSensitive n)) "NotificationRequestItem"
      = getProp (some n) "NotificationRequestItem" := by
  cases n <;> simp only [stripSensitive, getProp]
  rw [lookupKey_filter_ne (by decide), lookupKey_filter_ne (by decide)]

theorem getAddInterfaceInteractionUpdateAction_ok (now : Nat) (n : Json) (item code : JsValue)
    (status : String)
    (hitem : getProp (some n) "NotificationRequestItem" = .ok item)
    (hcode : getProp item "eventCode" = .ok code) (hstatus : statusOf code = some status) :
    getAddInterfaceInteractionUpdateAction now n
      = .ok (.addInterfaceInteraction "ctp-adyen-integration-interaction-notification" "type"
          ⟨now, status, "notification", some (stripSensitive n).stringify⟩, stripSensitive n) := by
  have h2 := getProp_stripSensitive n
  rw [hitem] at h2
  cases n with
  | null => simp [getProp] at hitem
  | obj kvs =>
    simp only [stripSensitive] at h2
    simp only [getAddInterfaceInteractionUpdateAction, deleteProp, bind, Except.bind, h2, hcode,
      stripSensitive]
    cases code with
    | none => simp [statusOf] at hstatus; simp [isNil, hstatus, pure, Except.pure]
    | some c =>
      cases c <;> simp [statusOf] at hstatus <;> simp [isNil, hstatus, pure, Except.pure]
  | _ =>
    simp [getProp] at hitem
    subst hitem
    simp [getProp] at hcode

theorem calculateUpdateActionsForPayment_eq (cmp : String → Option String → Int) (now : Nat)
    (table : List AdyenEvent) (payment : Payment) (n : Json) :
    calculateUpdateActionsForPayment cmp now table payment n =
      match getProp (some n) "NotificationRequestItem" with
      | .error e => .error e
      | .ok item =>
        match interactionStep now payment n with
        | .error e => .error e
        | .ok (acts, n') =>
          match getTransactionTypeAndStateOrNull table item with
          | .error e => .error e
          | .ok (cls, table') =>
            match transactionStep cmp payment item cls with
            | .error e => .error e
            | .ok acts' => .ok (acts ++ acts', n', table') := by
  unfold calculateUpdateActionsForPayment interactionStep transactionStep
  simp only [bind, Except.bind, pure, Except.pure, Except.map, getAddTransactionUpdateAction,
    getChangeTransactionStateUpdateAction]
  generalize getProp (some n) "NotificationRequestItem" = ritem
  generalize payment.interfaceInteractions.any _ = logged
  generalize getAddInterfaceInteractionUpdateAction now n = radd
  cases ritem with
  | error e => rfl
  | ok item =>
    simp only []
    generalize getTransactionTypeAndStateOrNull table item = rcls
    generalize getProp item "pspReference" = rpsp
    generalize getProp item "amount" = ramount
    cases logged <;> cases radd <;> cases rcls <;> simp
    all_goals
      split <;> try rfl
    all_goals
      cases rpsp <;> simp
    all_goals
      generalize List.find? _ payment.transactions = found
      cases found with
      | none =>
        simp only []
        cases ramount with
        | error e => rfl
        | ok amount =>
          simp only []
          cases getProp amount "value" with
          | error e => rfl
          | ok value =>
            simp only []
            cases getProp amount "currency" <;> simp
      | some old =>
        simp only []
        split <;> simp

/-- C7: for an item whose `eventCode` is `CANCEL_OR_REFUND` and whose (eventCode, success) pair
has a row in the table, `getTransactionTypeAndStateOrNull` returns the type `Refund` when
`additionalData['modification.action']` is `refund` and `CancelAuthorization` when it is
`cancel`, each with the transaction state of the first matching row. -/
theorem ambiguous_event_resolution (adyenEvents : List AdyenEvent)
    (item success additionalData : JsValue) (entry : AdyenEvent)
    (hcode : getProp item "eventCode" = .ok (some (.str "CANCEL_OR_REFUND")))
    (hsuccess : getProp item "success" = .ok success)
    (hentry : adyenEvents.find? (matchesEvent (some (.str "CANCEL_OR_REFUND")) success)
      = some entry)
    (hdata : getProp item "additionalData" = .ok additionalData) :
    (getProp additionalData "modification.action" = .ok (some (.str "refund")) →
      getTransactionTypeAndStateOrNull adyenEvents item
        = .ok (⟨some "Refund", entry.transactionState⟩, setTransactionType
            (matchesEvent (some (.str "CANCEL_OR_REFUND")) success) "Refund" adyenEvents)) ∧
    (getProp additionalData "modification.action" = .ok (some (.str "cancel")) →
      getTransactionTypeAndStateOrNull adyenEvents item
        = .ok (⟨some "CancelAuthorization", entry.transactionState⟩, setTransactionType
            (matchesEvent (some (.str "CANCEL_OR_REFUND")) success) "CancelAuthorization"
            adyenEvents)) := by
  have htruthy : ∀ s, getProp additionalData "modification.action" = .ok (some (.str s)) →
      truthy additionalData = true := by
    intro s h
    unfold getProp at h
    split at h <;> simp_all [truthy, lookupKey]
  constructor
  · intro h
    simp only [getTransactionTypeAndStateOrNull, bind, Except.bind, hcode, hsuccess, hentry,
      hdata, htruthy _ h, h, strictEq, beq_self_eq_true, if_true, pure, Except.pure]
  · intro h
    simp only [getTransactionTypeAndStateOrNull, bind, Except.bind, hcode, hsuccess, hentry,
      hdata, htruthy _ h, h, strictEq, beq_self_eq_true, if_true, pure, Except.pure]
    simp

theorem interactionStep_ok (now : Nat) (payment : Payment) (n : Json) (item code : JsValue)
    (status : String)
    (hitem : getProp (some n) "NotificationRequestItem" = .ok item)
    (hcode : getProp item "eventCode" = .ok code) (hstatus : statusOf code = some status) :
    interactionStep now payment n =
      .ok (if isLogged payment n then ([], n)
        else ([loggingAction now status n], stripSensitive n)) := by
  unfold interactionStep isLogged
  rw [getAddInterfaceInteractionUpdateAction_ok now n item code status hitem hcode hstatus]
  cases payment.interfaceInteractions.any _ <;> simp [Except.map, loggingAction]

theorem matchesEvent_code {code success : JsValue} {e : AdyenEvent}
    (h : matchesEvent code success e = true) : code = some (.str e.eventCode) := by
  unfold matchesEvent at h
  simp only [Bool.and_eq_true] at h
  obtain ⟨h1, _⟩ := h
  unfold strictEq at h1
  split at h1 <;> simp_all

theorem classification_mapped {adyenEvents adyenEvents' : List AdyenEvent} {item : JsValue}
    {cls : Classification}
    (h : getTransactionTypeAndStateOrNull adyenEvents item = .ok (cls, adyenEvents'))
    (hty : cls.transactionType ≠ none) :
    ∃ s, getProp item "eventCode" = .ok (some (.str s)) := by
  unfold getTransactionTypeAndStateOrNull at h
  simp only [bind, Except.bind] at h
  cases hcode : getProp item "eventCode" with
  | error e => simp [hcode] at h
  | ok code =>
    simp only [hcode] at h
    cases hsucc : getProp item "success" with
    | error e => simp [hsucc] at h
    | ok success =>
      simp only [hsucc] at h
      cases hfind : adyenEvents.find? (matchesEvent code success) with
      | none =>
        simp only [hfind, pure, Except.pure, Except.ok.injEq, Prod.mk.injEq] at h
        exact absurd (by rw [← h.1]) hty
      | some e =>
        have := matchesEvent_code (List.find?_some hfind)
        exact ⟨e.eventCode, by rw [this]⟩

/-- C8: for a notification whose item has a string (or absent) `eventCode` and whose
(eventCode, success) pair has no row in the table, `getTransactionTypeAndStateOrNull` returns
a null type and a null state, and `calculateUpdateActionsForPayment` returns a plan that is
empty when the interaction is logged already and exactly the one `addInterfaceInteraction`
action otherwise; it holds no `addTransaction` and no `changeTransactionState`. -/
theorem unmapped_event (compareTransactionStates : String → Option String → Int) (now : Nat)
    (adyenEvents : List AdyenEvent) (payment : Payment) (notification : Json)
    (item code success : JsValue) (status : String)
    (hitem : getProp (some notification) "NotificationRequestItem" = .ok item)
    (hcode : getProp item "eventCode" = .ok code)
    (hsuccess : getProp item "success" = .ok success)
    (hstatus : statusOf code = some status)
    (hunmapped : adyenEvents.find? (matchesEvent code success) = none) :
    getTransactionTypeAndStateOrNull adyenEvents item = .ok (⟨none, none⟩, adyenEvents) ∧
    ∃ acts notification',
      calculateUpdateActionsForPayment compareTransactionStates now adyenEvents payment
        notification = .ok (acts, notification', adyenEvents) ∧
      (isLogged payment notification = true → acts = []) ∧
      (isLogged payment notification = false → acts = [loggingAction now status notification]) ∧
      acts.all (fun a => !a.isAddTransaction && !a.isChangeTransactionState) = true := by
  have hcls : getTransactionTypeAndStateOrNull adyenEvents item
      = .ok (⟨none, none⟩, adyenEvents) := by
    simp only [getTransactionTypeAndStateOrNull, bind, Except.bind, hcode, hsuccess, hunmapped,
      pure, Except.pure]
  refine ⟨hcls, ?_⟩
  rw [calculateUpdateActionsForPayment_eq, hitem]
  simp only [interactionStep_ok now payment notification item code status hitem hcode hstatus,
    hcls, transactionStep]
  cases isLogged payment notification
  · exact ⟨_, _, rfl, by simp, by simp, by simp [loggingAction, UpdateAction.isAddTransaction,
      UpdateAction.isChangeTransactionState]⟩
  · exact ⟨_, _, rfl, by simp, by simp, by simp⟩

/-- C2: when the payment has a transaction whose `interactionId` equals the `pspReference` of
the notification (the first such is `oldTransaction`) and the classification has a non-null
type, `calculateUpdateActionsForPayment` returns a plan that holds a `changeTransactionState`
exactly when `compareTransactionStates` of the old and the classified state is positive; the
action carries the id of `oldTransaction` and the classified state, no `addTransaction` is
planned, and without a positive comparison no transaction action is planned at all. -/
theorem monotonic_transaction_state (compareTransactionStates : String → Option String → Int)
    (now : Nat) (adyenEvents adyenEvents' : List AdyenEvent) (payment : Payment)
    (notification : Json) (item pspReference : JsValue) (classification : Classification)
    (oldTransaction : Transaction)
    (hitem : getProp (some notification) "NotificationRequestItem" = .ok item)
    (hclass : getTransactionTypeAndStateOrNull adyenEvents item
      = .ok (classification, adyenEvents'))
    (htype : classification.transactionType ≠ none)
    (hpsp : getProp item "pspReference" = .ok pspReference)
    (hold : payment.transactions.find? (fun transaction =>
      strictEq (transaction.interactionId.map Json.str) pspReference) = some oldTransaction) :
    ∃ acts notification',
      calculateUpdateActionsForPayment compareTransactionStates now adyenEvents payment
        notification = .ok (acts, notification', adyenEvents') ∧
      ((∃ a ∈ acts, a.isChangeTransactionState = true) ↔
        compareTransactionStates oldTransaction.state classification.transactionState > 0) ∧
      (∀ a ∈ acts, a.isChangeTransactionState = true →
        a = .changeTransactionState oldTransaction.id classification.transactionState) ∧
      (∀ a ∈ acts, a.isAddTransaction = false) ∧
      (¬ compareTransactionStates oldTransaction.state classification.transactionState > 0 →
        ∀ a ∈ acts, a.isAddInterfaceInteraction = true) := by
  obtain ⟨s, hcode⟩ := classification_mapped hclass htype
  rw [calculateUpdateActionsForPayment_eq, hitem]
  simp only [interactionStep_ok now payment notification item _ (toLowerCase s) hitem hcode rfl,
    hclass, transactionStep, htype, if_false, hpsp, hold]
  by_cases hcmp : compareTransactionStates oldTransaction.state classification.transactionState > 0
  · cases isLogged payment notification <;>
      simp [hcmp, loggingAction, UpdateAction.isChangeTransactionState,
        UpdateAction.isAddTransaction, UpdateAction.isAddInterfaceInteraction]
  · cases isLogged payment notification <;>
      simp [hcmp, loggingAction, UpdateAction.isChangeTransactionState,
        UpdateAction.isAddTransaction, UpdateAction.isAddInterfaceInteraction]

/-- C1 (failing input): the plan for `replayNotification`, a notification with a `reason`
next to its item, is applied to `emptyPayment`; planning the same notification against the
resulting payment yields a second `addInterfaceInteraction` instead of the empty list. -/
theorem replay_logs_interaction_again :
    ∃ acts notification' adyenEvents' payment' acts2 notification2 adyenEvents2,
      calculateUpdateActionsForPayment stateRankCompare 7 sampleAdyenEvents emptyPayment
        replayNotification = .ok (acts, notification', adyenEvents') ∧
      acts.map UpdateAction.isAddInterfaceInteraction = [true, false] ∧
      applyUpdateActions "t1" emptyPayment acts = some payment' ∧
      calculateUpdateActionsForPayment stateRankCompare 8 adyenEvents' payment'
        replayNotification = .ok (acts2, notification2, adyenEvents2) ∧
      acts2.map UpdateAction.isAddInterfaceInteraction = [true] :=
  ⟨_, _, _, _, _, _, _, rfl, rfl, rfl, rfl, rfl⟩

/-- C3 (failing input): for `sensitiveNotification`, whose item carries `additionalData` and
`reason`, the payload stored by `getAddInterfaceInteractionUpdateAction` still holds both. -/
theorem sensitive_fields_stored :
    getAddInterfaceInteractionUpdateAction 0 sensitiveNotification =
      .ok (.addInterfaceInteraction "ctp-adyen-integration-interaction-notification" "type"
        ⟨0, "authorisation", "notification", some
          "\x7b\"NotificationRequestItem\":\x7b\"eventCode\":\"AUTHORISATION\",\"additionalData\":\x7b\"cardSummary\":\"1111\"\x7d,\"reason\":\"r\"\x7d\x7d"⟩,
        sensitiveNotification) := rfl

/-- Witness of C7 on the rows of `sampleAdyenEvents`, for `refund` and for `cancel`. -/
theorem ambiguous_event_resolution_witness :
    getTransactionTypeAndStateOrNull sampleAdyenEvents (some (cancelOrRefundItem "refund"))
      = .ok (⟨some "Refund", some "Success"⟩, setTransactionType
          (matchesEvent (some (.str "CANCEL_OR_REFUND")) (some (.str "true"))) "Refund"
          sampleAdyenEvents) ∧
    getTransactionTypeAndStateOrNull sampleAdyenEvents (some (cancelOrRefundItem "cancel"))
      = .ok (⟨some "CancelAuthorization", some "Success"⟩, setTransactionType
          (matchesEvent (some (.str "CANCEL_OR_REFUND")) (some (.str "true")))
          "CancelAuthorization" sampleAdyenEvents) :=
  ⟨(ambiguous_event_resolution sampleAdyenEvents (some (cancelOrRefundItem "refund"))
      (some (.str "true")) (some (.obj [("modification.action", .str "refund")]))
      ⟨"CANCEL_OR_REFUND", .str "true", some "CancelAuthorization", some "Success"⟩
      rfl rfl rfl rfl).1 rfl,
   (ambiguous_event_resolution sampleAdyenEvents (some (cancelOrRefundItem "cancel"))
      (some (.str "true")) (some (.obj [("modification.action", .str "cancel")]))
      ⟨"CANCEL_OR_REFUND", .str "true", some "CancelAuthorization", some "Success"⟩
      rfl rfl rfl rfl).2 rfl⟩

/-- Witness of C8: `reportNotification` against `emptyPayment`. -/
theorem unmapped_event_witness :
    getTransactionTypeAndStateOrNull sampleAdyenEvents
        (some (.obj [("eventCode", .str "REPORT_AVAILABLE"), ("success", .str "true"),
          ("pspReference", .str "p4")]))
      = .ok (⟨none, none⟩, sampleAdyenEvents) ∧
    ∃ acts notification',
      calculateUpdateActionsForPayment stateRankCompare 0 sampleAdyenEvents emptyPayment
        reportNotification = .ok (acts, notification', sampleAdyenEvents) ∧
      (isLogged emptyPayment reportNotification = true → acts = []) ∧
      (isLogged emptyPayment reportNotification = false →
        acts = [loggingAction 0 "report_available" reportNotification]) ∧
      acts.all (fun a => !a.isAddTransaction && !a.isChangeTransactionState) = true :=
  unmapped_event stateRankCompare 0 sampleAdyenEvents emptyPayment reportNotification
    (some (.obj [("eventCode", .str "REPORT_AVAILABLE"), ("success", .str "true"),
      ("pspReference", .str "p4")]))
    (some (.str "REPORT_AVAILABLE")) (some (.str "true")) "report_available"
    rfl rfl rfl rfl rfl

/-- Witness of C2: an authorisation success for the pending transaction of `pendingPayment`. -/
theorem monotonic_transaction_state_witness :
    ∃ acts notification',
      calculateUpdateActionsForPayment stateRankCompare 0 sampleAdyenEvents pendingPayment
        authorisationNotification = .ok (acts, notification', sampleAdyenEvents) ∧
      ((∃ a ∈ acts, a.isChangeTransactionState = true) ↔
        stateRankCompare "Pending" (some "Success") > 0) ∧
      (∀ a ∈ acts, a.isChangeTransactionState = true →
        a = .changeTransactionState "t1" (some "Success")) ∧
      (∀ a ∈ acts, a.isAddTransaction = false) ∧
      (¬ stateRankCompare "Pending" (some "Success") > 0 →
        ∀ a ∈ acts, a.isAddInterfaceInteraction = true) :=
  monotonic_transaction_state stateRankCompare 0 sampleAdyenEvents sampleAdyenEvents
    pendingPayment authorisationNotification (some (.obj authorisationItem)) (some (.str "p1"))
    ⟨some "Authorization", some "Success"⟩
    ⟨"t1", "Authorization", "Pending", 100, "EUR", some "p1"⟩
    rfl rfl (by decide) rfl rfl

theorem updateLoop_bound (cmp : String → Option String → Int) (now : Nat → Nat)
    (client : CtpClient) (maxRetry : Nat) :
    ∀ (fuel : Nat) (st : LoopState), st.retryCount ≤ maxRetry →
      maxRetry + 1 ≤ st.retryCount + fuel →
      ∃ run, updateLoop cmp now client maxRetry fuel st = some run ∧
        countUpdates run.calls + st.retryCount ≤ countUpdates st.calls + (maxRetry + 1) ∧
        countFetches run.calls + st.retryCount ≤ countFetches st.calls + maxRetry := by
  intro fuel
  induction fuel with
  | zero => intro st h1 h2; omega
  | succ fuel ih =>
    intro st h1 h2
    unfold updateLoop
    cases calculateUpdateActionsForPayment cmp (now st.retryCount) st.adyenEvents
        st.currentPayment st.notification with
    | error e => exact ⟨_, rfl, by simp only []; omega, by simp only []; omega⟩
    | ok r =>
      obtain ⟨acts, n', t'⟩ := r
      simp only []
      have hu : countUpdates (st.calls ++ [StoreCall.update st.currentPayment.id
          st.currentVersion acts]) = countUpdates st.calls + 1 := by
        simp [countUpdates, StoreCall.isUpdate]
      have hf : countFetches (st.calls ++ [StoreCall.update st.currentPayment.id
          st.currentVersion acts]) = countFetches st.calls := by
        simp [countFetches, StoreCall.isFetch]
      cases client.update st.retryCount with
      | ok u => exact ⟨_, rfl, by simp only [hu]; omega, by simp only [hf]; omega⟩
      | error err =>
        simp only []
        cases err.body with
        | none => exact ⟨_, rfl, by simp only [hu]; omega, by simp only [hf]; omega⟩
        | some body =>
          simp only []
          split
          · exact ⟨_, rfl, by simp only [hu]; omega, by simp only [hf]; omega⟩
          · split
            · split
              · exact ⟨_, rfl, by simp only [hu]; omega, by simp only [hf]; omega⟩
              · exact ⟨_, rfl, by simp only [hu]; omega, by simp only [hf]; omega⟩
            · rename_i hle
              have hu2 : countUpdates (st.calls ++ [StoreCall.update st.currentPayment.id
                  st.currentVersion acts] ++ [StoreCall.fetchById st.currentPayment.id])
                  = countUpdates st.calls + 1 := by
                simp [countUpdates, StoreCall.isUpdate]
              have hf2 : countFetches (st.calls ++ [StoreCall.update st.currentPayment.id
                  st.currentVersion acts] ++ [StoreCall.fetchById st.currentPayment.id])
                  = countFetches st.calls + 1 := by
                simp [countFetches, StoreCall.isFetch]
              cases client.fetchById st.retryCount with
              | error e => exact ⟨_, rfl, by simp only [hu2]; omega, by simp only [hf2]; omega⟩
              | ok response =>
                simp only []
                obtain ⟨run, hrun, h3, h4⟩ := ih
                  { currentPayment := response, currentVersion := response.version,
                    retryCount := st.retryCount + 1, notification := n', adyenEvents := t',
                    calls := st.calls ++ [StoreCall.update st.currentPayment.id
                      st.currentVersion acts] ++ [StoreCall.fetchById st.currentPayment.id] }
                  (by simp only []; omega) (by simp only []; omega)
                refine ⟨run, hrun, ?_, ?_⟩
                · simp only [hu2] at h3; omega
                · simp only [hf2] at h4; omega

/-- C4 (amended): for every sequence of store answers, `updatePaymentWithRepeater` ends (the
iterations it is given suffice) after at most `maxRetry + 1 = 21` writes, the first attempt and
at most 20 retries, and at most `maxRetry = 20` fetches. -/
theorem write_attempts_bounded (compareTransactionStates : String → Option String → Int)
    (now : Nat → Nat) (adyenEvents : List AdyenEvent) (payment : Payment) (notification : Json)
    (ctpClient : CtpClient) :
    ∃ run, updatePaymentWithRepeater compareTransactionStates now adyenEvents payment
        notification ctpClient = some run ∧
      countUpdates run.calls ≤ maxRetry + 1 ∧ countFetches run.calls ≤ maxRetry := by
  obtain ⟨run, hrun, h1, h2⟩ := updateLoop_bound compareTransactionStates now ctpClient maxRetry
    (maxRetry + 1)
    { currentPayment := payment, currentVersion := payment.version, retryCount := 0,
      notification := notification, adyenEvents := adyenEvents, calls := [] }
    (Nat.zero_le _) (by simp)
  exact ⟨run, hrun, by simpa [countUpdates] using h1, by simpa [countFetches] using h2⟩

theorem conflictTrace_getLast (snapshots : Nat → Payment) (plans : Nat → List UpdateAction)
    (k : Nat) : ∀ (j : Nat) (calls : List StoreCall),
      (calls ++ conflictTrace snapshots plans j k).getLast?
        = some (.update (snapshots (j + k)).id (snapshots (j + k)).version (plans (j + k))) := by
  induction k with
  | zero => intro j calls; simp [conflictTrace]
  | succ k ih =>
    intro j calls
    have := ih (j + 1) (calls ++ [.update (snapshots j).id (snapshots j).version (plans j),
      .fetchById (snapshots j).id])
    simp only [conflictTrace]
    rw [show j + (k + 1) = j + 1 + k by omega, ← this]
    simp

theorem updateLoop_conflicts (cmp : String → Option String → Int) (now : Nat → Nat)
    (client : CtpClient) (maxRetry : Nat) (snapshots : Nat → Payment)
    (states : Nat → Json × List AdyenEvent) (plans : Nat → List UpdateAction) (k : Nat) :
    ∀ (j fuel : Nat) (calls : List StoreCall), j + k ≤ maxRetry → k < fuel →
      (∀ i, j ≤ i → i < j + k → ∃ err, client.update i = .error err ∧ err.isConflict = true) →
      client.update (j + k) = .ok () →
      (∀ i, j ≤ i → i < j + k → client.fetchById i = .ok (snapshots (i + 1))) →
      (∀ i, j ≤ i → i ≤ j + k → calculateUpdateActionsForPayment cmp (now i) (states i).2
        (snapshots i) (states i).1 = .ok (plans i, states (i + 1))) →
      updateLoop cmp now client maxRetry fuel
        { currentPayment := snapshots j, currentVersion := (snapshots j).version,
          retryCount := j, notification := (states j).1, adyenEvents := (states j).2,
          calls := calls }
        = some ⟨.ok (), calls ++ conflictTrace snapshots plans j k⟩ := by
  induction k with
  | zero =>
    intro j fuel calls hj hfuel _ hok _ hplan
    obtain ⟨fuel, rfl⟩ : ∃ f, fuel = f + 1 := ⟨fuel - 1, by omega⟩
    have hp := hplan j (le_refl _) (le_refl _)
    simp only [Nat.add_zero] at hok
    simp only [updateLoop, hp, hok, conflictTrace]
  | succ k ih =>
    intro j fuel calls hj hfuel hconf hok hfetch hplan
    obtain ⟨fuel, rfl⟩ : ∃ f, fuel = f + 1 := ⟨fuel - 1, by omega⟩
    have hp := hplan j (le_refl _) (by omega)
    obtain ⟨err, herr, hc⟩ := hconf j (le_refl _) (by omega)
    have hf := hfetch j (le_refl _) (by omega)
    unfold StoreError.isConflict at hc
    cases hbody : err.body with
    | none => simp [hbody] at hc
    | some body =>
      simp only [hbody, beq_iff_eq] at hc
      have hnot : ¬ (j + 1 > maxRetry) := by omega
      have hrec := ih (j + 1) fuel
        (calls ++ [.update (snapshots j).id (snapshots j).version (plans j)]
          ++ [.fetchById (snapshots j).id]) (by omega) (by omega)
        (fun i h1 h2 => hconf i (by omega) (by omega))
        (by rw [show j + 1 + k = j + (k + 1) by omega]; exact hok)
        (fun i h1 h2 => hfetch i (by omega) (by omega))
        (fun i h1 h2 => hplan i (by omega) (by omega))
      simp only [updateLoop, hp, herr, hbody, hc, ne_eq, not_true_eq_false, if_false, hnot, hf,
        hrec, conflictTrace]
      simp
theorem updateLoop_exhaust (cmp : String → Option String → Int) (now : Nat → Nat)
    (client : CtpClient) (maxRetry : Nat) (snapshots : Nat → Payment)
    (states : Nat → Json × List AdyenEvent) (plans : Nat → List UpdateAction)
    (last : StoreError) (lastBody : ErrorBody) (currentVersion : Option Nat) (k : Nat) :
    ∀ (j fuel : Nat) (calls : List StoreCall), j + k = maxRetry → k < fuel →
      (∀ i, j ≤ i → i < j + k → ∃ err, client.update i = .error err ∧ err.isConflict = true) →
      client.update maxRetry = .error last → last.body = some lastBody →
      lastBody.statusCode = 409 → lastBody.errors.head? = some currentVersion →
      (∀ i, j ≤ i → i < j + k → client.fetchById i = .ok (snapshots (i + 1))) →
      (∀ i, j ≤ i → i ≤ j + k → calculateUpdateActionsForPayment cmp (now i) (states i).2
        (snapshots i) (states i).1 = .ok (plans i, states (i + 1))) →
      updateLoop cmp now client maxRetry fuel
        { currentPayment := snapshots j, currentVersion := (snapshots j).version,
          retryCount := j, notification := (states j).1, adyenEvents := (states j).2,
          calls := calls }
        = some ⟨.error (.retryLimitReached (snapshots maxRetry).id (snapshots maxRetry).version
            currentVersion maxRetry), calls ++ conflictTrace snapshots plans j k⟩ := by
  induction k with
  | zero =>
    intro j fuel calls hj hfuel _ hlast hbody hstatus hhead _ hplan
    obtain ⟨fuel, rfl⟩ : ∃ f, fuel = f + 1 := ⟨fuel - 1, by omega⟩
    have hp := hplan j (le_refl _) (le_refl _)
    simp only [Nat.add_zero] at hj
    subst hj
    simp only [updateLoop, hp, hlast, hbody, hstatus, ne_eq, not_true_eq_false, if_false,
      gt_iff_lt, Nat.lt_succ_self, if_true, hhead, conflictTrace]
  | succ k ih =>
    intro j fuel calls hj hfuel hconf hlast hbody hstatus hhead hfetch hplan
    obtain ⟨fuel, rfl⟩ : ∃ f, fuel = f + 1 := ⟨fuel - 1, by omega⟩
    have hp := hplan j (le_refl _) (by omega)
    obtain ⟨err, herr, hc⟩ := hconf j (le_refl _) (by omega)
    have hf := hfetch j (le_refl _) (by omega)
    unfold StoreError.isConflict at hc
    cases hb : err.body with
    | none => simp [hb] at hc
    | some body =>
      simp only [hb, beq_iff_eq] at hc
      have hnot : ¬ (j + 1 > maxRetry) := by omega
      have hrec := ih (j + 1) fuel
        (calls ++ [.update (snapshots j).id (snapshots j).version (plans j)]
          ++ [.fetchById (snapshots j).id]) (by omega) (by omega)
        (fun i h1 h2 => hconf i (by omega) (by omega)) hlast hbody hstatus hhead
        (fun i h1 h2 => hfetch i (by omega) (by omega))
        (fun i h1 h2 => hplan i (by omega) (by omega))
      simp only [updateLoop, hp, herr, hb, hc, ne_eq, not_true_eq_false, if_false, hnot, hf,
        hrec, conflictTrace]
      simp

theorem updateLoop_never_ok (cmp : String → Option String → Int) (now : Nat → Nat)
    (client : CtpClient) (maxRetry : Nat)
    (hconf : ∀ i, ∃ err, client.update i = .error err ∧ err.isConflict = true) :
    ∀ (fuel : Nat) (st : LoopState) (run : Run),
      updateLoop cmp now client maxRetry fuel st = some run → ∃ e, run.outcome = .error e := by
  intro fuel
  induction fuel with
  | zero => intro st run h; simp [updateLoop] at h
  | succ fuel ih =>
    intro st run h
    unfold updateLoop at h
    cases hp : calculateUpdateActionsForPayment cmp (now st.retryCount) st.adyenEvents
        st.currentPayment st.notification with
    | error e =>
      simp only [hp, Option.some.injEq] at h
      exact ⟨e, by rw [← h]⟩
    | ok r =>
      obtain ⟨acts, n', t'⟩ := r
      obtain ⟨err, herr, hc⟩ := hconf st.retryCount
      unfold StoreError.isConflict at hc
      cases hb : err.body with
      | none => simp [hb] at hc
      | some body =>
        simp only [hb, beq_iff_eq] at hc
        simp only [hp, herr, hb, hc, ne_eq, not_true_eq_false, if_false] at h
        split at h
        · split at h <;> simp only [Option.some.injEq] at h <;> exact ⟨_, by rw [← h]⟩
        · cases hf : client.fetchById st.retryCount with
          | error e =>
            simp only [hf, Option.some.injEq] at h
            exact ⟨_, by rw [← h]⟩
          | ok response =>
            simp only [hf] at h
            exact ih _ run h

/-- C4 (counterexample): against a store that answers every write with a conflict,
`updatePaymentWithRepeater` issues 21 writes, more than the maximum of 20. -/
theorem twenty_one_write_attempts :
    ∃ run, updatePaymentWithRepeater stateRankCompare (fun _ => 0) sampleAdyenEvents emptyPayment
        reportNotification (conflictingClient emptyPayment) = some run ∧
      countUpdates run.calls = 21 ∧ ¬ countUpdates run.calls ≤ 20 :=
  ⟨_, rfl, by decide, by decide⟩

/-- C5: when the store answers the first `k` writes with a 409 conflict and write `k + 1` with
success, with `k` up to the retry bound, every re-fetch answered (`snapshots (i + 1)` is the
answer to the fetch after conflict `i + 1`, `snapshots 0` the initial payment) and the planner
returning `plans i` for snapshot `i`, `updatePaymentWithRepeater` returns successfully, and its
last call is the write of `plans k`, the plan of the last fetched snapshot, under the id and
the version of that snapshot. -/
theorem conflict_retry_convergence (compareTransactionStates : String → Option String → Int)
    (now : Nat → Nat) (adyenEvents : List AdyenEvent) (payment : Payment) (notification : Json)
    (ctpClient : CtpClient) (snapshots : Nat → Payment)
    (states : Nat → Json × List AdyenEvent) (plans : Nat → List UpdateAction) (k : Nat)
    (hk : k ≤ maxRetry)
    (hsnapshot : snapshots 0 = payment) (hstate : states 0 = (notification, adyenEvents))
    (hconflicts : ∀ i, i < k → ∃ err, ctpClient.update i = .error err ∧ err.isConflict = true)
    (hsuccess : ctpClient.update k = .ok ())
    (hfetch : ∀ i, i < k → ctpClient.fetchById i = .ok (snapshots (i + 1)))
    (hplan : ∀ i, i ≤ k → calculateUpdateActionsForPayment compareTransactionStates (now i)
      (states i).2 (snapshots i) (states i).1 = .ok (plans i, states (i + 1))) :
    ∃ run, updatePaymentWithRepeater compareTransactionStates now adyenEvents payment
        notification ctpClient = some run ∧
      run.outcome = .ok () ∧
      run.calls = conflictTrace snapshots plans 0 k ∧
      run.calls.getLast? = some (.update (snapshots k).id (snapshots k).version (plans k)) := by
  have h := updateLoop_conflicts compareTransactionStates now ctpClient maxRetry snapshots states
    plans k 0 (maxRetry + 1) [] (by omega) (by omega)
    (fun i _ h2 => hconflicts i (by omega)) (by simpa using hsuccess)
    (fun i _ h2 => hfetch i (by omega)) (fun i _ h2 => hplan i (by omega))
  rw [hsnapshot, hstate] at h
  refine ⟨_, h, rfl, by simp, ?_⟩
  have := conflictTrace_getLast snapshots plans k 0 []
  simpa using this

/-- Witness of C5 with one conflict: the first plan, from `emptyPayment`, adds a transaction;
the write that succeeds carries the plan from `refetchedPayment`, which changes the state of
the transaction found there, under version 2. -/
theorem conflict_retry_convergence_witness :
    ∃ run, updatePaymentWithRepeater stateRankCompare (fun _ => 0) sampleAdyenEvents emptyPayment
        authorisationNotification oneConflictClient = some run ∧
      run.outcome = .ok () ∧
      run.calls = conflictTrace (fun i => if i = 0 then emptyPayment else refetchedPayment)
        (fun i => if i = 0 then
            [loggingAction 0 "authorisation" authorisationNotification,
              .addTransaction (some "Authorization") (some (.str "EUR")) (some (.num 100))
                (some "Success") (some (.str "p1"))]
          else [loggingAction 0 "authorisation" authorisationNotification,
            .changeTransactionState "t1" (some "Success")]) 0 1 ∧
      run.calls.getLast? = some (.update "id1" 2
        [loggingAction 0 "authorisation" authorisationNotification,
          .changeTransactionState "t1" (some "Success")]) :=
  conflict_retry_convergence stateRankCompare (fun _ => 0) sampleAdyenEvents emptyPayment
    authorisationNotification oneConflictClient
    (fun i => if i = 0 then emptyPayment else refetchedPayment)
    (fun _ => (authorisationNotification, sampleAdyenEvents))
    (fun i => if i = 0 then
        [loggingAction 0 "authorisation" authorisationNotification,
          .addTransaction (some "Authorization") (some (.str "EUR")) (some (.num 100))
            (some "Success") (some (.str "p1"))]
      else [loggingAction 0 "authorisation" authorisationNotification,
        .changeTransactionState "t1" (some "Success")])
    1 (by decide) rfl rfl
    (fun i hi => by
      obtain rfl : i = 0 := by omega
      exact ⟨_, rfl, rfl⟩)
    rfl
    (fun i hi => by
      obtain rfl : i = 0 := by omega
      rfl)
    (fun i hi => by
      have : i = 0 ∨ i = 1 := by omega
      rcases this with rfl | rfl <;> rfl)

/-- C6: when the store answers every write with a 409 conflict, `updatePaymentWithRepeater`
ends and its outcome is an error, never success. When in addition every re-fetch is answered
(`snapshots (i + 1)` after conflict `i + 1`, `snapshots 0` the initial payment), the planner
returns a plan for every snapshot and the last conflict reports `currentVersion` in
`errors[0]`, the error is the retry-limit error with the id of the payment, the version of the
last write and that `currentVersion`. -/
theorem retry_exhaustion (compareTransactionStates : String → Option String → Int)
    (now : Nat → Nat) (adyenEvents : List AdyenEvent) (payment : Payment) (notification : Json)
    (ctpClient : CtpClient)
    (hconflicts : ∀ i, ∃ err, ctpClient.update i = .error err ∧ err.isConflict = true) :
    ∃ run e, updatePaymentWithRepeater compareTransactionStates now adyenEvents payment
        notification ctpClient = some run ∧
      run.outcome = .error e ∧
      ∀ (snapshots : Nat → Payment) (states : Nat → Json × List AdyenEvent)
        (plans : Nat → List UpdateAction) (last : StoreError) (lastBody : ErrorBody)
        (currentVersion : Option Nat),
        snapshots 0 = payment → states 0 = (notification, adyenEvents) →
        (∀ i, i < maxRetry → ctpClient.fetchById i = .ok (snapshots (i + 1))) →
        (∀ i, i ≤ maxRetry → calculateUpdateActionsForPayment compareTransactionStates (now i)
          (states i).2 (snapshots i) (states i).1 = .ok (plans i, states (i + 1))) →
        ctpClient.update maxRetry = .error last → last.body = some lastBody →
        lastBody.errors.head? = some currentVersion →
        e = .retryLimitReached (snapshots maxRetry).id (snapshots maxRetry).version
          currentVersion maxRetry := by
  obtain ⟨run, hrun, _, _⟩ := updateLoop_bound compareTransactionStates now ctpClient maxRetry
    (maxRetry + 1)
    { currentPayment := payment, currentVersion := payment.version, retryCount := 0,
      notification := notification, adyenEvents := adyenEvents, calls := [] }
    (Nat.zero_le _) (by simp)
  obtain ⟨e, he⟩ := updateLoop_never_ok compareTransactionStates now ctpClient maxRetry
    hconflicts _ _ run hrun
  refine ⟨run, e, hrun, he, ?_⟩
  intro snapshots states plans last lastBody currentVersion hsnapshot hstate hfetch hplan hlast
    hbody hhead
  have hstatus : lastBody.statusCode = 409 := by
    obtain ⟨err, herr, hc⟩ := hconflicts maxRetry
    rw [hlast] at herr
    cases herr
    simpa [StoreError.isConflict, hbody] using hc
  have h := updateLoop_exhaust compareTransactionStates now ctpClient maxRetry snapshots states
    plans last lastBody currentVersion maxRetry 0 (maxRetry + 1) [] (by omega) (by omega)
    (fun i _ _ => hconflicts i) hlast hbody hstatus hhead
    (fun i _ h2 => hfetch i (by omega)) (fun i _ h2 => hplan i (by omega))
  rw [hsnapshot, hstate] at h
  rw [h] at hrun
  cases hrun
  simpa using he.symm

/-- Witness of C6: against `conflictingClient emptyPayment` the run ends with the retry-limit
error for payment `id1`, version tried 1, and the version 21 the last conflict reports. -/
theorem retry_exhaustion_witness :
    ∃ run, updatePaymentWithRepeater stateRankCompare (fun _ => 0) sampleAdyenEvents emptyPayment
        reportNotification (conflictingClient emptyPayment) = some run ∧
      run.outcome = .error (.retryLimitReached "id1" 1 (some 21) 20) := by
  obtain ⟨run, e, hrun, he, h⟩ := retry_exhaustion stateRankCompare (fun _ => 0)
    sampleAdyenEvents emptyPayment reportNotification (conflictingClient emptyPayment)
    (fun i => ⟨_, rfl, rfl⟩)
  refine ⟨run, hrun, ?_⟩
  rw [he, h (fun _ => emptyPayment)
    (fun i => if i = 0 then (reportNotification, sampleAdyenEvents)
      else (stripSensitive reportNotification, sampleAdyenEvents))
    (fun _ => [loggingAction 0 "report_available" reportNotification])
    (conflict 21) ⟨409, [some 21]⟩ (some 21) rfl rfl (fun _ _ => rfl)
    (fun i _ => by
      by_cases hi : i = 0
      · subst hi; rfl
      · simp only [hi, if_false, Nat.add_eq_zero, one_ne_zero, and_false]
        rfl)
    rfl rfl rfl]
  rfl

theorem filter_key_absent (key : String) (kvs : List (String × Json))
    (h : key ∉ kvs.map Prod.fst) : kvs.filter (fun kv => !decide (kv.1 = key)) = kvs := by
  rw [List.filter_eq_self]
  intro kv hkv
  have : kv.1 ≠ key := fun e => h (e ▸ List.mem_map_of_mem Prod.fst hkv)
  simpa using this

theorem stripSensitive_of_absent (n : Json) (h1 : "additionalData" ∉ n.keys)
    (h2 : "reason" ∉ n.keys) : stripSensitive n = n := by
  cases n with
  | obj kvs =>
    simp only [Json.keys] at h1 h2
    simp only [stripSensitive, filter_key_absent _ _ h1, filter_key_absent _ _ h2]
  | _ => rfl

theorem getAddInterfaceInteractionUpdateAction_shape {now : Nat} {n m : Json}
    {a : UpdateAction} (h : getAddInterfaceInteractionUpdateAction now n = .ok (a, m)) :
    ∃ item code status, getProp (some n) "NotificationRequestItem" = .ok item ∧
      getProp item "eventCode" = .ok code ∧ statusOf code = some status := by
  cases n with
  | null => simp [getAddInterfaceInteractionUpdateAction, deleteProp, bind, Except.bind] at h
  | obj kvs =>
    have h2 := getProp_stripSensitive (.obj kvs)
    simp only [stripSensitive] at h2
    simp only [getAddInterfaceInteractionUpdateAction, deleteProp, bind, Except.bind, h2] at h
    cases hitem : getProp (some (.obj kvs)) "NotificationRequestItem" with
    | error e => simp [hitem] at h
    | ok item =>
      simp only [hitem] at h
      cases hcode : getProp item "eventCode" with
      | error e => simp [hcode] at h
      | ok code =>
        simp only [hcode] at h
        refine ⟨item, code, ?_⟩
        cases code with
        | none => exact ⟨_, rfl, hcode, rfl⟩
        | some c =>
          cases c <;> first
            | exact ⟨_, rfl, hcode, rfl⟩
            | (simp [isNil, throw, throwThe, MonadExceptOf.throw] at h)
  | _ =>
    simp [getAddInterfaceInteractionUpdateAction, deleteProp, bind, Except.bind, getProp] at h

theorem matchesEvent_setType (code success : JsValue) (e : AdyenEvent) (ty : Option String) :
    matchesEvent code success { e with transactionType := ty } = matchesEvent code success e :=
  rfl

theorem find?_setTransactionType (code success : JsValue) (ty : String) :
    ∀ (table : List AdyenEvent) (e : AdyenEvent),
      table.find? (matchesEvent code success) = some e →
      (setTransactionType (matchesEvent code success) ty table).find?
        (matchesEvent code success) = some { e with transactionType := some ty } := by
  intro table
  induction table with
  | nil => intro e h; simp at h
  | cons x rest ih =>
    intro e h
    by_cases hx : matchesEvent code success x = true
    · simp only [List.find?, hx] at h
      cases h
      simp only [setTransactionType, hx, if_true, List.find?, matchesEvent_setType]
    · simp only [Bool.not_eq_true] at hx
      simp only [List.find?, hx] at h
      simp only [setTransactionType, hx, Bool.false_eq_true, if_false, List.find?]
      exact ih e h

theorem setTransactionType_idem (p : AdyenEvent → Bool) (ty : String)
    (hp : ∀ e t, p { e with transactionType := t } = p e) :
    ∀ table : List AdyenEvent,
      setTransactionType p ty (setTransactionType p ty table) = setTransactionType p ty table := by
  intro table
  induction table with
  | nil => rfl
  | cons x rest ih =>
    by_cases hx : p x = true
    · simp only [setTransactionType, hx, if_true, hp]
    · simp [setTransactionType, hx, ih]

theorem getTransactionTypeAndStateOrNull_idem {table table' : List AdyenEvent} {item : JsValue}
    {cls : Classification}
    (h : getTransactionTypeAndStateOrNull table item = .ok (cls, table')) :
    getTransactionTypeAndStateOrNull table' item = .ok (cls, table') := by
  unfold getTransactionTypeAndStateOrNull at h ⊢
  simp only [bind, Except.bind, pure, Except.pure] at h ⊢
  cases hcode : getProp item "eventCode" with
  | error e => simp [hcode] at h
  | ok code =>
    simp only [hcode] at h ⊢
    cases hsucc : getProp item "success" with
    | error e => simp [hsucc] at h
    | ok success =>
      simp only [hsucc] at h ⊢
      cases hfind : table.find? (matchesEvent code success) with
      | none =>
        simp only [hfind, Except.ok.injEq, Prod.mk.injEq] at h
        obtain ⟨h1, h2⟩ := h
        subst h1 h2
        simp only [hfind]
      | some e =>
        simp only [hfind] at h
        have key : ∀ action : JsValue,
            (if strictEq action (some (.str "refund")) = true then
              (Except.ok (⟨some "Refund", e.transactionState⟩,
                setTransactionType (matchesEvent code success) "Refund" table) :
                Except JsError (Classification × List AdyenEvent))
            else if strictEq action (some (.str "cancel")) = true then
              Except.ok (⟨some "CancelAuthorization", e.transactionState⟩,
                setTransactionType (matchesEvent code success) "CancelAuthorization" table)
            else Except.ok (⟨e.transactionType, e.transactionState⟩, table))
              = Except.ok (cls, table') →
            ∃ e', table'.find? (matchesEvent code success) = some e' ∧
              (if strictEq action (some (.str "refund")) = true then
                (Except.ok (⟨some "Refund", e'.transactionState⟩,
                  setTransactionType (matchesEvent code success) "Refund" table') :
                  Except JsError (Classification × List AdyenEvent))
              else if strictEq action (some (.str "cancel")) = true then
                Except.ok (⟨some "CancelAuthorization", e'.transactionState⟩,
                  setTransactionType (matchesEvent code success) "CancelAuthorization" table')
              else Except.ok (⟨e'.transactionType, e'.transactionState⟩, table'))
                = Except.ok (cls, table') := by
          intro action hact
          by_cases hr : strictEq action (some (.str "refund")) = true
          · simp only [hr, if_true, Except.ok.injEq, Prod.mk.injEq] at hact ⊢
            obtain ⟨h1, h2⟩ := hact
            subst h1 h2
            exact ⟨_, find?_setTransactionType code success "Refund" table e hfind,
              rfl, setTransactionType_idem _ _ (matchesEvent_setType code success) _⟩
          · by_cases hcn : strictEq action (some (.str "cancel")) = true
            · simp only [hr, hcn, if_true, Bool.false_eq_true, if_false, Except.ok.injEq,
                Prod.mk.injEq] at hact ⊢
              obtain ⟨h1, h2⟩ := hact
              subst h1 h2
              exact ⟨_, find?_setTransactionType code success "CancelAuthorization" table e
                hfind, rfl, setTransactionType_idem _ _ (matchesEvent_setType code success) _⟩
            · simp only [hr, hcn, Bool.false_eq_true, if_false, Except.ok.injEq,
                Prod.mk.injEq] at hact ⊢
              obtain ⟨h1, h2⟩ := hact
              subst h1 h2
              exact ⟨e, hfind, by simp⟩
        by_cases hc : strictEq code (some (.str "CANCEL_OR_REFUND")) = true
        · simp only [hc, if_true] at h
          cases hdata : getProp item "additionalData" with
          | error e => simp [hdata] at h
          | ok data =>
            simp only [hdata] at h
            cases htr : truthy data with
            | true =>
              simp only [htr, if_true] at h
              cases hact : getProp data "modification.action" with
              | error e => simp [hact] at h
              | ok action =>
                simp only [hact] at h
                obtain ⟨e', hfind', hres⟩ := key action h
                simp only [hfind', hc, if_true, hdata, htr, hact]
                exact hres
            | false =>
              simp only [htr, Bool.false_eq_true, if_false] at h
              obtain ⟨e', hfind', hres⟩ := key (some Json.null) h
              simp only [hfind', hc, if_true, hdata, htr, Bool.false_eq_true, if_false]
              exact hres
        · simp only [hc, Bool.false_eq_true, if_false, Except.ok.injEq, Prod.mk.injEq] at h
          obtain ⟨h1, h2⟩ := h
          subst h1 h2
          simp only [hfind, hc, Bool.false_eq_true, if_false]
theorem interactionStep_again {now : Nat} {payment : Payment} {n n1 : Json}
    {a1 : List UpdateAction} (h : interactionStep now payment n = .ok (a1, n1)) (now2 : Nat) :
    ∃ a1', interactionStep now2 payment n = .ok (a1', n1) ∧
      a1'.map UpdateAction.withoutTimestamp = a1.map UpdateAction.withoutTimestamp ∧
      (n1 = n ∨ n1 = stripSensitive n) := by
  unfold interactionStep at h ⊢
  cases hlog : payment.interfaceInteractions.any
      (fun interaction => interaction.fields.notification == some n.stringify) with
  | true =>
    simp only [hlog, if_true, Except.ok.injEq, Prod.mk.injEq] at h ⊢
    obtain ⟨h1, h2⟩ := h
    subst h1 h2
    exact ⟨[], ⟨rfl, rfl⟩, rfl, Or.inl rfl⟩
  | false =>
    simp only [hlog, Bool.false_eq_true, if_false] at h ⊢
    cases hadd : getAddInterfaceInteractionUpdateAction now n with
    | error e => simp [hadd, Except.map] at h
    | ok r =>
      obtain ⟨a, m⟩ := r
      obtain ⟨item, code, status, hitem, hcode, hstatus⟩ :=
        getAddInterfaceInteractionUpdateAction_shape hadd
      rw [getAddInterfaceInteractionUpdateAction_ok now n item code status hitem hcode hstatus]
        at h
      rw [getAddInterfaceInteractionUpdateAction_ok now2 n item code status hitem hcode hstatus]
      simp only [Except.map, Except.ok.injEq, Prod.mk.injEq] at h ⊢
      obtain ⟨h1, h2⟩ := h
      subst h1 h2
      exact ⟨_, ⟨rfl, rfl⟩, rfl, Or.inr rfl⟩

/-- C10 (amended): a call of `calculateUpdateActionsForPayment` that returns a plan leaves the
notification object either as it was or without its own `additionalData` and `reason`
properties, which it deletes in place. For a notification object that has neither property,
the call leaves the object as it was, and a second call with the same snapshot and the same
object (after the first, at any time) returns the same plan, timestamps aside. The payment is
only read. -/
theorem planner_repeatable (compareTransactionStates : String → Option String → Int)
    (now now2 : Nat) (adyenEvents adyenEvents' : List AdyenEvent) (payment : Payment)
    (notification notification' : Json) (acts : List UpdateAction)
    (hfirst : calculateUpdateActionsForPayment compareTransactionStates now adyenEvents payment
      notification = .ok (acts, notification', adyenEvents')) :
    (notification' = notification ∨ notification' = stripSensitive notification) ∧
    ("additionalData" ∉ notification.keys → "reason" ∉ notification.keys →
      notification' = notification ∧
      ∃ acts2, calculateUpdateActionsForPayment compareTransactionStates now2 adyenEvents'
          payment notification' = .ok (acts2, notification', adyenEvents') ∧
        acts2.map UpdateAction.withoutTimestamp = acts.map UpdateAction.withoutTimestamp) := by
  rw [calculateUpdateActionsForPayment_eq] at hfirst
  cases hitem : getProp (some notification) "NotificationRequestItem" with
  | error e => simp [hitem] at hfirst
  | ok item =>
    simp only [hitem] at hfirst
    cases hstep : interactionStep now payment notification with
    | error e => simp [hstep] at hfirst
    | ok r =>
      obtain ⟨a1, n1⟩ := r
      simp only [hstep] at hfirst
      cases hcls : getTransactionTypeAndStateOrNull adyenEvents item with
      | error e => simp [hcls] at hfirst
      | ok c =>
        obtain ⟨cls, t'⟩ := c
        simp only [hcls] at hfirst
        cases htx : transactionStep compareTransactionStates payment item cls with
        | error e => simp [htx] at hfirst
        | ok a2 =>
          simp only [htx, Except.ok.injEq, Prod.mk.injEq] at hfirst
          obtain ⟨hacts, hn, ht⟩ := hfirst
          subst hacts hn ht
          obtain ⟨a1', hstep2, hsame, hn1⟩ := interactionStep_again hstep now2
          refine ⟨hn1, ?_⟩
          intro hdata hreason
          have hn1' : n1 = notification := by
            rcases hn1 with h | h
            · exact h
            · rw [h, stripSensitive_of_absent notification hdata hreason]
          subst hn1'
          refine ⟨rfl, a1' ++ a2, ?_, by simp [hsame]⟩
          rw [calculateUpdateActionsForPayment_eq]
          simp only [hitem, hstep2, getTransactionTypeAndStateOrNull_idem hcls, htx]

/-- C10 (counterexample): the first call with `replayNotification` and `loggedPayment` plans an
`addInterfaceInteraction` and deletes the `reason` of the notification object; the second call
with the same snapshot and the same object plans nothing. -/
theorem planner_not_repeatable :
    ∃ acts notification' adyenEvents' acts2 notification2 adyenEvents2,
      calculateUpdateActionsForPayment stateRankCompare 0 sampleAdyenEvents loggedPayment
        replayNotification = .ok (acts, notification', adyenEvents') ∧
      calculateUpdateActionsForPayment stateRankCompare 0 adyenEvents' loggedPayment
        notification' = .ok (acts2, notification2, adyenEvents2) ∧
      acts.length = 1 ∧ acts2.length = 0 ∧
      replayNotification.keys = ["NotificationRequestItem", "reason"] ∧
      notification'.keys = ["NotificationRequestItem"] :=
  ⟨_, _, _, _, _, _, rfl, rfl, rfl, rfl, rfl, rfl⟩

/-- Witness of C10 (amended): `authorisationNotification` against `emptyPayment`. -/
theorem planner_repeatable_witness :
    authorisationNotification = authorisationNotification ∧
    ∃ acts2, calculateUpdateActionsForPayment stateRankCompare 5 sampleAdyenEvents emptyPayment
        authorisationNotification = .ok (acts2, authorisationNotification, sampleAdyenEvents) ∧
      acts2.map UpdateAction.withoutTimestamp =
        [loggingAction 0 "authorisation" authorisationNotification,
          .addTransaction (some "Authorization") (some (.str "EUR")) (some (.num 100))
            (some "Success") (some (.str "p1"))].map UpdateAction.withoutTimestamp :=
  (planner_repeatable stateRankCompare 0 5 sampleAdyenEvents sampleAdyenEvents emptyPayment
    authorisationNotification authorisationNotification
    [loggingAction 0 "authorisation" authorisationNotification,
      .addTransaction (some "Authorization") (some (.str "EUR")) (some (.num 100))
        (some "Success") (some (.str "p1"))]
    rfl).2 (by decide) (by decide)

/-- C9 (failing input): on `sampleAdyenEvents` the item without a `modification.action` is
classified with the mapped type `CancelAuthorization`; after a call for a `refund` item the same
item is classified `Refund`, and after a call for a `cancel` item `CancelAuthorization`: the
call changes the table and the result depends on the calls before it. -/
theorem classifier_keeps_last_action :
    ∃ afterRefund afterCancel,
      getTransactionTypeAndStateOrNull sampleAdyenEvents (some bareCancelOrRefundItem)
        = .ok (⟨some "CancelAuthorization", some "Success"⟩, sampleAdyenEvents) ∧
      getTransactionTypeAndStateOrNull sampleAdyenEvents (some (cancelOrRefundItem "refund"))
        = .ok (⟨some "Refund", some "Success"⟩, afterRefund) ∧
      afterRefund.map (fun e => e.transactionType)
        = [some "Authorization", some "Authorization", some "Refund"] ∧
      getTransactionTypeAndStateOrNull afterRefund (some bareCancelOrRefundItem)
        = .ok (⟨some "Refund", some "Success"⟩, afterRefund) ∧
      getTransactionTypeAndStateOrNull afterRefund (some (cancelOrRefundItem "cancel"))
        = .ok (⟨some "CancelAuthorization", some "Success"⟩, afterCancel) ∧
      getTransactionTypeAndStateOrNull afterCancel (some bareCancelOrRefundItem)
        = .ok (⟨some "CancelAuthorization", some "Success"⟩, afterCancel) :=
  ⟨_, _, rfl, rfl, rfl, rfl, rfl, rfl⟩

theorem applyUpdateActions_nil (newId : String) (p : Payment) :
    applyUpdateActions newId p [] = some { p with version := p.version + 1 } := rfl

theorem applyUpdateActions_cons (newId : String) (p : Payment) (a : UpdateAction)
    (rest : List UpdateAction) :
    applyUpdateActions newId p (a :: rest)
      = (applyUpdateAction newId p a).bind (applyUpdateActions newId · rest) := rfl

theorem transactionStep_after_apply (cmp : String → Option String → Int) (newId : String)
    (payment p1 payment' : Payment) (item : JsValue) (cls : Classification)
    (a2 : List UpdateAction)
    (hcmp : ∀ s, cmp s (some s) ≤ 0)
    (htx : transactionStep cmp payment item cls = .ok a2)
    (hp1 : p1.transactions = payment.transactions)
    (happly : applyUpdateActions newId p1 a2 = some payment') :
    transactionStep cmp payment' item cls = .ok [] ∧
      payment'.interfaceInteractions = p1.interfaceInteractions := by
  unfold transactionStep at htx ⊢
  by_cases hty : cls.transactionType = none
  · simp only [hty, if_true, Except.ok.injEq] at htx ⊢
    subst htx
    simp only [applyUpdateActions_nil, Option.some.injEq] at happly
    subst happly
    exact ⟨trivial, rfl⟩
  · simp only [hty, if_false] at htx ⊢
    cases hpsp : getProp item "pspReference" with
    | error e => simp [hpsp] at htx
    | ok psp =>
      simp only [hpsp] at htx ⊢
      cases hfind : payment.transactions.find?
          (fun transaction => strictEq (transaction.interactionId.map Json.str) psp) with
      | none =>
        simp only [hfind] at htx
        cases hamount : getProp item "amount" with
        | error e => simp [hamount] at htx
        | ok amount =>
          simp only [hamount] at htx
          cases hvalue : getProp amount "value" with
          | error e => simp [hvalue] at htx
          | ok value =>
            simp only [hvalue] at htx
            cases hcurrency : getProp amount "currency" with
            | error e => simp [hcurrency] at htx
            | ok currency =>
              simp only [hcurrency, Except.ok.injEq] at htx
              subst htx
              have hnot : ∀ st : String, ¬ cmp st (some st) > 0 := fun st => by
                have := hcmp st; omega
              cases hT : cls.transactionType with
              | none => exact absurd hT hty
              | some ty =>
              cases hS : cls.transactionState with
              | none =>
                simp [applyUpdateActions_cons, applyUpdateAction, hT, hS] at happly
              | some st =>
              cases hA : jsonAsInt value with
              | none =>
                simp [applyUpdateActions_cons, applyUpdateAction, hT, hS, hA] at happly
              | some amt =>
              cases hC : jsonAsString currency with
              | none =>
                simp [applyUpdateActions_cons, applyUpdateAction, hT, hS, hA, hC] at happly
              | some cur =>
              have hpay : ∃ i : Option String, psp = i.map Json.str ∧
                  payment' = { p1 with
                    transactions := p1.transactions ++ [⟨newId, ty, st, amt, cur, i⟩],
                    version := p1.version + 1 } := by
                cases psp with
                | none =>
                  refine ⟨none, rfl, ?_⟩
                  simp [applyUpdateActions_cons, applyUpdateActions_nil, applyUpdateAction, hT,
                    hS, hA, hC] at happly
                  exact happly.symm
                | some j =>
                  cases j <;>
                    simp [applyUpdateActions_cons, applyUpdateActions_nil, applyUpdateAction,
                      hT, hS, hA, hC] at happly
                  exact ⟨some _, rfl, happly.symm⟩
              obtain ⟨i, rfl, rfl⟩ := hpay
              have hself : strictEq (Option.map Json.str i) (Option.map Json.str i) = true := by
                cases i <;> simp [strictEq]
              have hnew : List.find? (fun transaction : Transaction =>
                  strictEq (Option.map Json.str transaction.interactionId)
                    (Option.map Json.str i))
                  [⟨newId, ty, st, amt, cur, i⟩] = some ⟨newId, ty, st, amt, cur, i⟩ := by
                simp only [List.find?, hself]
              simp only [hp1, List.find?_append, hfind, Option.none_or, hnew, hnot, if_false,
                and_self]
      | some old =>
        simp only [hfind] at htx
        have hnot : ∀ st : String, ¬ cmp st (some st) > 0 := fun st => by
          have := hcmp st; omega
        by_cases hgt : cmp old.state cls.transactionState > 0
        · simp only [hgt, if_true, Except.ok.injEq] at htx
          subst htx
          cases hS : cls.transactionState with
          | none =>
            simp [applyUpdateActions_cons, applyUpdateAction, hS] at happly
          | some st =>
            simp only [applyUpdateActions_cons, applyUpdateActions_nil, applyUpdateAction, hS,
              Option.map, Option.bind, Option.some.injEq] at happly
            subst happly
            have hcomp : ((fun transaction : Transaction =>
                strictEq (Option.map Json.str transaction.interactionId) psp) ∘
                (fun t : Transaction => if t.id = old.id then { t with state := st } else t))
                = (fun transaction : Transaction =>
                  strictEq (Option.map Json.str transaction.interactionId) psp) := by
              funext t
              simp only [Function.comp]
              split <;> rfl
            simp only [hp1, List.find?_map]
            rw [hcomp, hfind]
            simp only [Option.map_some', if_true, hnot, if_false, and_self]
        · simp only [hgt, if_false, Except.ok.injEq] at htx
          subst htx
          simp only [applyUpdateActions_nil, Option.some.injEq] at happly
          subst happly
          simp only [hp1, hfind, hgt, if_false, and_self]

theorem interactionStep_apply {now : Nat} {payment : Payment} {n n1 : Json}
    {a1 : List UpdateAction} (newId : String)
    (h : interactionStep now payment n = .ok (a1, n1)) (hstrip : stripSensitive n = n) :
    ∃ p1 : Payment, p1.transactions = payment.transactions ∧ isLogged p1 n = true ∧
      ∀ a2, applyUpdateActions newId payment (a1 ++ a2) = applyUpdateActions newId p1 a2 := by
  unfold interactionStep at h
  cases hlog : payment.interfaceInteractions.any
      (fun interaction => interaction.fields.notification == some n.stringify) with
  | true =>
    simp only [hlog, if_true, Except.ok.injEq, Prod.mk.injEq] at h
    obtain ⟨h1, _⟩ := h
    subst h1
    exact ⟨payment, rfl, hlog, fun a2 => rfl⟩
  | false =>
    simp only [hlog, Bool.false_eq_true, if_false] at h
    cases hadd : getAddInterfaceInteractionUpdateAction now n with
    | error e => simp [hadd, Except.map] at h
    | ok r =>
      obtain ⟨a, m⟩ := r
      obtain ⟨item, code, status, hitem, hcode, hstatus⟩ :=
        getAddInterfaceInteractionUpdateAction_shape hadd
      rw [getAddInterfaceInteractionUpdateAction_ok now n item code status hitem hcode hstatus]
        at h
      simp only [Except.map, Except.ok.injEq, Prod.mk.injEq] at h
      obtain ⟨h1, _⟩ := h
      subst h1
      refine ⟨{ payment with interfaceInteractions := payment.interfaceInteractions ++
        [⟨⟨now, status, "notification", some (stripSensitive n).stringify⟩⟩] }, rfl, ?_,
        fun a2 => rfl⟩
      simp [isLogged, hstrip]

/-- Idempotency away from the failing inputs of C1: for a notification object without an
`additionalData` and without a `reason` property of its own (so for every notification of the
inbound shape) and a comparison of transaction states that is not positive on equal states,
when the plan computed for the payment and the notification is applied to the payment,
planning the same notification against the resulting payment, at any later time, yields the
empty list. -/
theorem replay_plans_nothing (compareTransactionStates : String → Option String → Int)
    (now now2 : Nat) (newId : String) (adyenEvents adyenEvents' : List AdyenEvent)
    (payment payment' : Payment) (notification notification' : Json)
    (acts : List UpdateAction)
    (hcompare : ∀ s, compareTransactionStates s (some s) ≤ 0)
    (hdata : "additionalData" ∉ notification.keys) (hreason : "reason" ∉ notification.keys)
    (hplan : calculateUpdateActionsForPayment compareTransactionStates now adyenEvents payment
      notification = .ok (acts, notification', adyenEvents'))
    (happly : applyUpdateActions newId payment acts = some payment') :
    calculateUpdateActionsForPayment compareTransactionStates now2 adyenEvents' payment'
      notification = .ok ([], notification, adyenEvents') := by
  have hstrip := stripSensitive_of_absent notification hdata hreason
  rw [calculateUpdateActionsForPayment_eq] at hplan
  cases hitem : getProp (some notification) "NotificationRequestItem" with
  | error e => simp [hitem] at hplan
  | ok item =>
    simp only [hitem] at hplan
    cases hstep : interactionStep now payment notification with
    | error e => simp [hstep] at hplan
    | ok r =>
      obtain ⟨a1, n1⟩ := r
      simp only [hstep] at hplan
      cases hcls : getTransactionTypeAndStateOrNull adyenEvents item with
      | error e => simp [hcls] at hplan
      | ok c =>
        obtain ⟨cls, t'⟩ := c
        simp only [hcls] at hplan
        cases htx : transactionStep compareTransactionStates payment item cls with
        | error e => simp [htx] at hplan
        | ok a2 =>
          simp only [htx, Except.ok.injEq, Prod.mk.injEq] at hplan
          obtain ⟨hacts, hn, ht⟩ := hplan
          subst hacts hn ht
          obtain ⟨p1, hp1, hlogged, happ⟩ := interactionStep_apply newId hstep hstrip
          rw [happ a2] at happly
          obtain ⟨htx2, hint⟩ := transactionStep_after_apply compareTransactionStates newId
            payment p1 payment' item cls a2 hcompare htx hp1 happly
          have hlogged' : payment'.interfaceInteractions.any
              (fun interaction => interaction.fields.notification
                == some notification.stringify) = true := by
            rw [hint]; exact hlogged
          rw [calculateUpdateActionsForPayment_eq]
          simp only [hitem, interactionStep, hlogged', if_true,
            getTransactionTypeAndStateOrNull_idem hcls, htx2, List.append_nil]

/-- An instance of `replay_plans_nothing`: `authorisationNotification` planned against
`emptyPayment`, the plan applied, and the notification planned again. -/
theorem replay_plans_nothing_witness :
    calculateUpdateActionsForPayment stateRankCompare 8 sampleAdyenEvents
      ⟨"id1", some "k", 2,
        [⟨⟨7, "authorisation", "notification", some authorisationNotification.stringify⟩⟩],
        [⟨"t1", "Authorization", "Success", 100, "EUR", some "p1"⟩]⟩
      authorisationNotification = .ok ([], authorisationNotification, sampleAdyenEvents) :=
  replay_plans_nothing stateRankCompare 7 8 "t1" sampleAdyenEvents sampleAdyenEvents
    emptyPayment _ authorisationNotification authorisationNotification
    [loggingAction 7 "authorisation" authorisationNotification,
      .addTransaction (some "Authorization") (some (.str "EUR")) (some (.num 100))
        (some "Success") (some (.str "p1"))]
    (fun s => by
      unfold stateRankCompare
      cases h : stateRank s <;> simp [Option.bind, h])
    (by decide) (by decide) rfl rfl

theorem updateLoop_unexpected (cmp : String → Option String → Int) (now : Nat → Nat)
    (client : CtpClient) (maxRetry : Nat) (snapshots : Nat → Payment)
    (states : Nat → Json × List AdyenEvent) (plans : Nat → List UpdateAction)
    (err : StoreError) (body : ErrorBody) (k : Nat) :
    ∀ (j fuel : Nat) (calls : List StoreCall), j + k ≤ maxRetry → k < fuel →
      (∀ i, j ≤ i → i < j + k → ∃ err, client.update i = .error err ∧ err.isConflict = true) →
      client.update (j + k) = .error err → err.body = some body → body.statusCode ≠ 409 →
      (∀ i, j ≤ i → i < j + k → client.fetchById i = .ok (snapshots (i + 1))) →
      (∀ i, j ≤ i → i ≤ j + k → calculateUpdateActionsForPayment cmp (now i) (states i).2
        (snapshots i) (states i).1 = .ok (plans i, states (i + 1))) →
      updateLoop cmp now client maxRetry fuel
        { currentPayment := snapshots j, currentVersion := (snapshots j).version,
          retryCount := j, notification := (states j).1, adyenEvents := (states j).2,
          calls := calls }
        = some ⟨.error (.unexpectedError (snapshots (j + k)).id),
            calls ++ conflictTrace snapshots plans j k⟩ := by
  induction k with
  | zero =>
    intro j fuel calls hj hfuel _ hfail hbody hstatus _ hplan
    obtain ⟨fuel, rfl⟩ : ∃ f, fuel = f + 1 := ⟨fuel - 1, by omega⟩
    have hp := hplan j (le_refl _) (le_refl _)
    simp only [Nat.add_zero] at hfail ⊢
    simp only [updateLoop, hp, hfail, hbody, ne_eq, hstatus, not_false_eq_true, if_true,
      conflictTrace]
  | succ k ih =>
    intro j fuel calls hj hfuel hconf hfail hbody hstatus hfetch hplan
    obtain ⟨fuel, rfl⟩ : ∃ f, fuel = f + 1 := ⟨fuel - 1, by omega⟩
    have hp := hplan j (le_refl _) (by omega)
    obtain ⟨err', herr, hc⟩ := hconf j (le_refl _) (by omega)
    have hf := hfetch j (le_refl _) (by omega)
    unfold StoreError.isConflict at hc
    cases hb : err'.body with
    | none => simp [hb] at hc
    | some body' =>
      simp only [hb, beq_iff_eq] at hc
      have hnot : ¬ (j + 1 > maxRetry) := by omega
      have hrec := ih (j + 1) fuel
        (calls ++ [.update (snapshots j).id (snapshots j).version (plans j)]
          ++ [.fetchById (snapshots j).id]) (by omega) (by omega)
        (fun i h1 h2 => hconf i (by omega) (by omega))
        (by rw [show j + 1 + k = j + (k + 1) by omega]; exact hfail) hbody hstatus
        (fun i h1 h2 => hfetch i (by omega) (by omega))
        (fun i h1 h2 => hplan i (by omega) (by omega))
      simp only [updateLoop, hp, herr, hb, hc, ne_eq, not_true_eq_false, if_false, hnot, hf,
        hrec, conflictTrace]
      rw [show j + 1 + k = j + (k + 1) by omega]
      simp

/-- Unexpected store errors that carry a response body (C11 away from its failing input): when
a write of `updatePaymentWithRepeater` is answered with a status other than 409 (after `k`
conflicts, `k` up to the retry bound, the re-fetches answered and the planner returning
`plans i` for snapshot `i`), the run ends at once with the error of line 54, which names the
id of the payment; the failed write is the last call, no fetch and no write follow it. -/
theorem unexpected_store_error_fatal (compareTransactionStates : String → Option String → Int)
    (now : Nat → Nat) (adyenEvents : List AdyenEvent) (payment : Payment) (notification : Json)
    (ctpClient : CtpClient) (snapshots : Nat → Payment)
    (states : Nat → Json × List AdyenEvent) (plans : Nat → List UpdateAction) (k : Nat)
    (err : StoreError) (body : ErrorBody)
    (hk : k ≤ maxRetry)
    (hsnapshot : snapshots 0 = payment) (hstate : states 0 = (notification, adyenEvents))
    (hconflicts : ∀ i, i < k → ∃ err, ctpClient.update i = .error err ∧ err.isConflict = true)
    (hfail : ctpClient.update k = .error err) (hbody : err.body = some body)
    (hstatus : body.statusCode ≠ 409)
    (hfetch : ∀ i, i < k → ctpClient.fetchById i = .ok (snapshots (i + 1)))
    (hplan : ∀ i, i ≤ k → calculateUpdateActionsForPayment compareTransactionStates (now i)
      (states i).2 (snapshots i) (states i).1 = .ok (plans i, states (i + 1))) :
    ∃ run, updatePaymentWithRepeater compareTransactionStates now adyenEvents payment
        notification ctpClient = some run ∧
      run.outcome = .error (.unexpectedError (snapshots k).id) ∧
      run.calls = conflictTrace snapshots plans 0 k ∧
      run.calls.getLast? = some (.update (snapshots k).id (snapshots k).version (plans k)) ∧
      countUpdates run.calls = k + 1 ∧ countFetches run.calls = k := by
  have h := updateLoop_unexpected compareTransactionStates now ctpClient maxRetry snapshots
    states plans err body k 0 (maxRetry + 1) [] (by omega) (by omega)
    (fun i _ h2 => hconflicts i (by omega)) (by simpa using hfail) hbody hstatus
    (fun i _ h2 => hfetch i (by omega)) (fun i _ h2 => hplan i (by omega))
  rw [hsnapshot, hstate] at h
  have hcount : ∀ (k j : Nat), countUpdates (conflictTrace snapshots plans j k) = k + 1 ∧
      countFetches (conflictTrace snapshots plans j k) = k := by
    intro k
    induction k with
    | zero =>
      intro j
      simp [conflictTrace, countUpdates, countFetches, StoreCall.isUpdate, StoreCall.isFetch]
    | succ k ih =>
      intro j
      have := ih (j + 1)
      simp only [countUpdates, countFetches] at this ⊢
      simp [conflictTrace, StoreCall.isUpdate, StoreCall.isFetch, this]
  refine ⟨_, h, by simp, by simp, ?_, ?_, ?_⟩
  · have := conflictTrace_getLast snapshots plans k 0 []
    simpa using this
  · simpa using (hcount k 0).1
  · simpa using (hcount k 0).2

/-- An instance of `unexpected_store_error_fatal`: the first write is answered with a 500. -/
theorem unexpected_store_error_fatal_witness :
    ∃ run, updatePaymentWithRepeater stateRankCompare (fun _ => 0) sampleAdyenEvents emptyPayment
        reportNotification failingClient = some run ∧
      run.outcome = .error (.unexpectedError "id1") ∧
      run.calls = conflictTrace (fun _ => emptyPayment)
        (fun _ => [loggingAction 0 "report_available" reportNotification]) 0 0 ∧
      run.calls.getLast? = some (.update "id1" 1
        [loggingAction 0 "report_available" reportNotification]) ∧
      countUpdates run.calls = 0 + 1 ∧ countFetches run.calls = 0 :=
  unexpected_store_error_fatal stateRankCompare (fun _ => 0) sampleAdyenEvents emptyPayment
    reportNotification failingClient (fun _ => emptyPayment)
    (fun _ => (reportNotification, sampleAdyenEvents))
    (fun _ => [loggingAction 0 "report_available" reportNotification]) 0
    ⟨some 500, some ⟨500, []⟩⟩ ⟨500, []⟩ (by decide) rfl rfl
    (fun i hi => absurd hi (Nat.not_lt_zero i)) rfl rfl (by decide)
    (fun i hi => absurd hi (Nat.not_lt_zero i))
    (fun i hi => by
      obtain rfl : i = 0 := by omega
      rfl)

/-- C15: when the payment has no transaction whose `interactionId` equals the `pspReference`
of the notification, the classification has a non-null type and the item carries an `amount`,
`calculateUpdateActionsForPayment` returns a plan whose last action is the one `addTransaction`
of the plan, with the classified type and state, `centAmount` the `amount.value`,
`currencyCode` the `amount.currency` and `interactionId` the `pspReference`; the plan holds no
`changeTransactionState`. -/
theorem new_transaction (compareTransactionStates : String → Option String → Int)
    (now : Nat) (adyenEvents adyenEvents' : List AdyenEvent) (payment : Payment)
    (notification : Json) (item pspReference amount value currency : JsValue)
    (classification : Classification)
    (hitem : getProp (some notification) "NotificationRequestItem" = .ok item)
    (hclass : getTransactionTypeAndStateOrNull adyenEvents item
      = .ok (classification, adyenEvents'))
    (htype : classification.transactionType ≠ none)
    (hpsp : getProp item "pspReference" = .ok pspReference)
    (hnone : payment.transactions.find? (fun transaction =>
      strictEq (transaction.interactionId.map Json.str) pspReference) = none)
    (hamount : getProp item "amount" = .ok amount)
    (hvalue : getProp amount "value" = .ok value)
    (hcurrency : getProp amount "currency" = .ok currency) :
    ∃ acts notification',
      calculateUpdateActionsForPayment compareTransactionStates now adyenEvents payment
        notification = .ok (acts, notification', adyenEvents') ∧
      acts.getLast? = some (.addTransaction classification.transactionType currency value
        classification.transactionState pspReference) ∧
      acts.countP UpdateAction.isAddTransaction = 1 ∧
      (∀ a ∈ acts, a.isChangeTransactionState = false) := by
  obtain ⟨s, hcode⟩ := classification_mapped hclass htype
  rw [calculateUpdateActionsForPayment_eq, hitem]
  simp only [interactionStep_ok now payment notification item _ (toLowerCase s) hitem hcode rfl,
    hclass, transactionStep, htype, if_false, hpsp, hnone, hamount, hvalue, hcurrency]
  cases isLogged payment notification <;>
    simp [loggingAction, UpdateAction.isChangeTransactionState, UpdateAction.isAddTransaction]

/-- Witness of C15: an authorisation for `emptyPayment`. -/
theorem new_transaction_witness :
    ∃ acts notification',
      calculateUpdateActionsForPayment stateRankCompare 0 sampleAdyenEvents emptyPayment
        authorisationNotification = .ok (acts, notification', sampleAdyenEvents) ∧
      acts.getLast? = some (.addTransaction (some "Authorization") (some (.str "EUR"))
        (some (.num 100)) (some "Success") (some (.str "p1"))) ∧
      acts.countP UpdateAction.isAddTransaction = 1 ∧
      (∀ a ∈ acts, a.isChangeTransactionState = false) :=
  new_transaction stateRankCompare 0 sampleAdyenEvents sampleAdyenEvents emptyPayment
    authorisationNotification (some (.obj authorisationItem)) (some (.str "p1"))
    (some (.obj [("value", .num 100), ("currency", .str "EUR")])) (some (.num 100))
    (some (.str "EUR")) ⟨some "Authorization", some "Success"⟩
    rfl rfl (by decide) rfl rfl rfl rfl rfl

/-- C14 (failing input): `loggedPayment` records an interaction whose payload is the
serialization of the stripped `replayNotification`, and the plan for `replayNotification`
still holds the `addInterfaceInteraction` for it. -/
theorem stripped_payload_logged_again :
    loggedPayment.interfaceInteractions.any (fun interaction =>
      interaction.fields.notification == some (stripSensitive replayNotification).stringify)
      = true ∧
    ∃ notification' adyenEvents',
      calculateUpdateActionsForPayment stateRankCompare 0 sampleAdyenEvents loggedPayment
        replayNotification
        = .ok ([loggingAction 0 "authorisation" replayNotification], notification',
            adyenEvents') :=
  ⟨by decide, _, _, rfl⟩

theorem transactionStep_shape {cmp : String → Option String → Int} {payment : Payment}
    {item : JsValue} {cls : Classification} {a2 : List UpdateAction}
    (h : transactionStep cmp payment item cls = .ok a2) :
    a2 = [] ∨
      (∃ type currencyCode centAmount state interactionId,
        a2 = [.addTransaction type currencyCode centAmount state interactionId]) ∨
      (∃ transactionId state, a2 = [.changeTransactionState transactionId state]) := by
  unfold transactionStep at h
  split at h
  · simp only [Except.ok.injEq] at h
    exact Or.inl h.symm
  · split at h
    · simp at h
    · split at h
      · split at h
        · simp at h
        · split at h
          · simp at h
          · split at h
            · simp at h
            · simp only [Except.ok.injEq] at h
              exact Or.inr (Or.inl ⟨_, _, _, _, _, h.symm⟩)
      · split at h
        · simp only [Except.ok.injEq] at h
          exact Or.inr (Or.inr ⟨_, _, h.symm⟩)
        · simp only [Except.ok.injEq] at h
          exact Or.inl h.symm

theorem interactionStep_shape {now : Nat} {payment : Payment} {n n1 : Json}
    {a1 : List UpdateAction} (h : interactionStep now payment n = .ok (a1, n1)) :
    (isLogged payment n = true ∧ a1 = [] ∧ n1 = n) ∨
      (isLogged payment n = false ∧ n1 = stripSensitive n ∧
        ∃ item code status, getProp (some n) "NotificationRequestItem" = .ok item ∧
          getProp item "eventCode" = .ok code ∧ statusOf code = some status ∧
          a1 = [loggingAction now status n]) := by
  unfold interactionStep at h
  unfold isLogged
  cases hlog : payment.interfaceInteractions.any
      (fun interaction => interaction.fields.notification == some n.stringify) with
  | true =>
    simp only [hlog, if_true, Except.ok.injEq, Prod.mk.injEq] at h
    exact Or.inl ⟨rfl, h.1.symm, h.2.symm⟩
  | false =>
    simp only [hlog, Bool.false_eq_true, if_false] at h
    cases hadd : getAddInterfaceInteractionUpdateAction now n with
    | error e => simp [hadd, Except.map] at h
    | ok r =>
      obtain ⟨a, m⟩ := r
      obtain ⟨item, code, status, hitem, hcode, hstatus⟩ :=
        getAddInterfaceInteractionUpdateAction_shape hadd
      rw [getAddInterfaceInteractionUpdateAction_ok now n item code status hitem hcode hstatus]
        at h
      simp only [Except.map, Except.ok.injEq, Prod.mk.injEq] at h
      exact Or.inr ⟨rfl, h.2.symm, item, code, status, hitem, hcode, hstatus, h.1.symm⟩

theorem plan_structure {cmp : String → Option String → Int} {now : Nat}
    {table table' : List AdyenEvent} {payment : Payment} {n n' : Json}
    {acts : List UpdateAction}
    (h : calculateUpdateActionsForPayment cmp now table payment n = .ok (acts, n', table')) :
    ∃ item cls a1 a2, getProp (some n) "NotificationRequestItem" = .ok item ∧
      interactionStep now payment n = .ok (a1, n') ∧
      getTransactionTypeAndStateOrNull table item = .ok (cls, table') ∧
      transactionStep cmp payment item cls = .ok a2 ∧ acts = a1 ++ a2 := by
  rw [calculateUpdateActionsForPayment_eq] at h
  cases hitem : getProp (some n) "NotificationRequestItem" with
  | error e => simp [hitem] at h
  | ok item =>
    simp only [hitem] at h
    cases hstep : interactionStep now payment n with
    | error e => simp [hstep] at h
    | ok r =>
      obtain ⟨a1, n1⟩ := r
      simp only [hstep] at h
      cases hcls : getTransactionTypeAndStateOrNull table item with
      | error e => simp [hcls] at h
      | ok c =>
        obtain ⟨cls, t'⟩ := c
        simp only [hcls] at h
        cases htx : transactionStep cmp payment item cls with
        | error e => simp [htx] at h
        | ok a2 =>
          simp only [htx, Except.ok.injEq, Prod.mk.injEq] at h
          obtain ⟨hacts, hn, ht⟩ := h
          subst hacts hn ht
          exact ⟨item, cls, a1, a2, rfl, rfl, hcls, htx, rfl⟩

theorem getProp_obj_ok (kvs : List (String × Json)) (key : String) :
    getProp (some (.obj kvs)) key = .ok (lookupKey key kvs) := rfl

theorem getProp_of_truthy {v : JsValue} (h : truthy v = true) (key : String) :
    ∃ r, getProp v key = .ok r := by
  cases v with
  | none => simp [truthy] at h
  | some j => cases j <;> first | (simp [truthy] at h; done) | exact ⟨_, rfl⟩

theorem getTransactionTypeAndStateOrNull_returns (table : List AdyenEvent)
    (ikvs : List (String × Json)) :
    ∃ cls table', getTransactionTypeAndStateOrNull table (some (.obj ikvs))
      = .ok (cls, table') := by
  unfold getTransactionTypeAndStateOrNull
  simp only [bind, Except.bind, pure, Except.pure, getProp_obj_ok]
  split
  · split
    · by_cases htr : truthy (lookupKey "additionalData" ikvs) = true
      · obtain ⟨r, hr⟩ := getProp_of_truthy htr "modification.action"
        simp only [htr, if_true, hr]
        split
        · exact ⟨_, _, rfl⟩
        · split <;> exact ⟨_, _, rfl⟩
      · simp only [htr, Bool.false_eq_true, if_false]
        split
        · exact ⟨_, _, rfl⟩
        · split <;> exact ⟨_, _, rfl⟩
    · exact ⟨_, _, rfl⟩
  · exact ⟨_, _, rfl⟩

theorem transactionStep_returns (cmp : String → Option String → Int) (payment : Payment)
    (ikvs : List (String × Json)) (cls : Classification) (value : JsValue)
    (hvalue : getProp (lookupKey "amount" ikvs) "value" = .ok value) :
    ∃ a2, transactionStep cmp payment (some (.obj ikvs)) cls = .ok a2 := by
  have hcurrency : ∃ c, getProp (lookupKey "amount" ikvs) "currency" = .ok c := by
    unfold getProp at hvalue ⊢
    split at hvalue <;> first | (simp at hvalue; done) | exact ⟨_, rfl⟩
  obtain ⟨c, hc⟩ := hcurrency
  unfold transactionStep
  simp only [getProp_obj_ok, hvalue, hc]
  split
  · exact ⟨_, rfl⟩
  · split
    · exact ⟨_, rfl⟩
    · split <;> exact ⟨_, rfl⟩

theorem PlanShape.bounds {acts : List UpdateAction} (h : PlanShape acts) :
    acts.length ≤ 2 ∧ acts.countP UpdateAction.isAddInterfaceInteraction ≤ 1 ∧
      acts.countP (fun a => a.isAddTransaction || a.isChangeTransactionState) ≤ 1 ∧
      (∀ a ∈ acts.tail, a.isAddInterfaceInteraction = false) := by
  obtain ⟨logging, transaction, rfl, hl, ht⟩ := h
  rcases hl with rfl | ⟨k, t, f, rfl⟩ <;>
    rcases ht with rfl | ⟨ty, c, a, s, i, rfl⟩ | ⟨id, s, rfl⟩ <;>
    simp [UpdateAction.isAddInterfaceInteraction, UpdateAction.isAddTransaction,
      UpdateAction.isChangeTransactionState]

/-- C16: every list `calculateUpdateActionsForPayment` returns has at most two actions, at most
one `addInterfaceInteraction` and at most one transaction action (an `addTransaction` or a
`changeTransactionState`), and an `addInterfaceInteraction` is the first action of the list.
The planner does return a list for every notification whose item is an object with a string,
null or absent `eventCode` and an `amount`. -/
theorem plan_shape (compareTransactionStates : String → Option String → Int) (now : Nat)
    (adyenEvents : List AdyenEvent) (payment : Payment) (notification : Json) :
    (∀ acts notification' adyenEvents',
      calculateUpdateActionsForPayment compareTransactionStates now adyenEvents payment
        notification = .ok (acts, notification', adyenEvents') →
      PlanShape acts ∧ acts.length ≤ 2 ∧
        acts.countP UpdateAction.isAddInterfaceInteraction ≤ 1 ∧
        acts.countP (fun a => a.isAddTransaction || a.isChangeTransactionState) ≤ 1 ∧
        (∀ a ∈ acts.tail, a.isAddInterfaceInteraction = false)) ∧
    (∀ (item : List (String × Json)) (status : String) (value : JsValue),
      getProp (some notification) "NotificationRequestItem" = .ok (some (.obj item)) →
      statusOf (lookupKey "eventCode" item) = some status →
      getProp (lookupKey "amount" item) "value" = .ok value →
      ∃ acts notification' adyenEvents',
        calculateUpdateActionsForPayment compareTransactionStates now adyenEvents payment
          notification = .ok (acts, notification', adyenEvents')) := by
  constructor
  · intro acts n' t' h
    obtain ⟨item, cls, a1, a2, _, hstep, _, htx, rfl⟩ := plan_structure h
    have hshape : PlanShape (a1 ++ a2) := by
      refine ⟨a1, a2, rfl, ?_, transactionStep_shape htx⟩
      rcases interactionStep_shape hstep with ⟨_, h1, _⟩ | ⟨_, _, _, _, _, _, _, _, h1⟩
      · exact Or.inl h1
      · exact Or.inr ⟨_, _, _, h1⟩
    exact ⟨hshape, hshape.bounds⟩
  · intro item status value hitem hstatus hvalue
    obtain ⟨cls, t', hcls⟩ := getTransactionTypeAndStateOrNull_returns adyenEvents item
    obtain ⟨a2, htx⟩ := transactionStep_returns compareTransactionStates payment item cls value
      hvalue
    rw [calculateUpdateActionsForPayment_eq, hitem]
    simp only [interactionStep_ok now payment notification _ _ status hitem
      (getProp_obj_ok item "eventCode") hstatus, hcls, htx]
    exact ⟨_, _, _, rfl⟩

/-- Witness of C16: the plan for `authorisationNotification` against `emptyPayment`. -/
theorem plan_shape_witness :
    PlanShape [loggingAction 0 "authorisation" authorisationNotification,
        .addTransaction (some "Authorization") (some (.str "EUR")) (some (.num 100))
          (some "Success") (some (.str "p1"))] ∧
      ∃ acts notification' adyenEvents',
        calculateUpdateActionsForPayment stateRankCompare 0 sampleAdyenEvents emptyPayment
          authorisationNotification = .ok (acts, notification', adyenEvents') :=
  ⟨((plan_shape stateRankCompare 0 sampleAdyenEvents emptyPayment authorisationNotification).1
      _ _ _ rfl).1,
    (plan_shape stateRankCompare 0 sampleAdyenEvents emptyPayment authorisationNotification).2
      authorisationItem "authorisation" (some (.num 100)) rfl rfl rfl⟩

/-- The interaction logging step as the code has it (C14 with the serialization taken before
the stripping): a returned plan starts with the `addInterfaceInteraction` exactly when no
recorded payload equals the serialization of the notification as received; the action carries
the serialization of the stripped notification, the lower-cased `eventCode` (the empty string
for `null` and `undefined`) and the type `notification`. -/
theorem interaction_logging_step (compareTransactionStates : String → Option String → Int)
    (now : Nat) (adyenEvents adyenEvents' : List AdyenEvent) (payment : Payment)
    (notification notification' : Json) (acts : List UpdateAction)
    (hplan : calculateUpdateActionsForPayment compareTransactionStates now adyenEvents payment
      notification = .ok (acts, notification', adyenEvents')) :
    (isLogged payment notification = true ∧
      ∀ a ∈ acts, a.isAddInterfaceInteraction = false) ∨
    (isLogged payment notification = false ∧
      ∃ item code status rest, getProp (some notification) "NotificationRequestItem" = .ok item ∧
        getProp item "eventCode" = .ok code ∧ statusOf code = some status ∧
        acts = .addInterfaceInteraction "ctp-adyen-integration-interaction-notification" "type"
          ⟨now, status, "notification", some (stripSensitive notification).stringify⟩ :: rest ∧
        ∀ a ∈ rest, a.isAddInterfaceInteraction = false) := by
  obtain ⟨item, cls, a1, a2, _, hstep, _, htx, rfl⟩ := plan_structure hplan
  have hrest : ∀ a ∈ a2, a.isAddInterfaceInteraction = false := by
    rcases transactionStep_shape htx with rfl | ⟨_, _, _, _, _, rfl⟩ | ⟨_, _, rfl⟩ <;>
      simp [UpdateAction.isAddInterfaceInteraction]
  rcases interactionStep_shape hstep with ⟨hl, rfl, _⟩ | ⟨hl, _, i, c, s, h1, h2, h3, rfl⟩
  · exact Or.inl ⟨hl, by simpa using hrest⟩
  · exact Or.inr ⟨hl, i, c, s, a2, h1, h2, h3, rfl, hrest⟩

theorem strictEq_null (v : Json) : strictEq (some v) (some .null) = true ↔ v = .null := by
  cases v <;> simp [strictEq]

theorem lookupKey_setMember (key : String) (v : Json) (kvs : List (String × Json)) :
    lookupKey key (setMember key v kvs) = some v := by
  induction kvs with
  | nil => simp [setMember, lookupKey]
  | cons kv rest ih =>
    obtain ⟨k, x⟩ := kv
    by_cases hk : k = key
    · simp [setMember, hk, lookupKey]
    · simp [setMember, hk, lookupKey, ih]

theorem buildRequest_eq (config : AdyenConfig) (requestObj : Json) (merchantAccount : JsValue)
    (h : getProp (some requestObj) "merchantAccount" = .ok merchantAccount) :
    (truthy merchantAccount = true →
      buildRequest config requestObj = .ok (httpRequestOf config requestObj, requestObj)) ∧
    (truthy merchantAccount = false →
      ∃ requestObj', setProp requestObj "merchantAccount" (.str config.merchantAccount)
          = .ok requestObj' ∧
        buildRequest config requestObj = .ok (httpRequestOf config requestObj', requestObj')) := by
  constructor
  · intro ht
    simp only [buildRequest, bind, Except.bind, h, ht, Bool.not_true, Bool.false_eq_true,
      if_false, pure, Except.pure, httpRequestOf]
  · intro hf
    have hset : ∃ r, setProp requestObj "merchantAccount" (.str config.merchantAccount)
        = .ok r := by
      cases requestObj <;> first | (simp [getProp] at h; done) | exact ⟨_, rfl⟩
    obtain ⟨r, hr⟩ := hset
    refine ⟨r, hr, ?_⟩
    simp only [buildRequest, bind, Except.bind, h, hf, Bool.not_false, if_true, hr, pure,
      Except.pure, httpRequestOf]

theorem deleteProp_keys {value stripped : Json} {key : String}
    (h : deleteProp value key = .ok stripped) : key ∉ stripped.keys := by
  cases value with
  | null => simp [deleteProp] at h
  | obj kvs =>
    simp only [deleteProp, Except.ok.injEq] at h
    subst h
    simp [Json.keys, List.mem_filter]
  | _ =>
    simp only [deleteProp, Except.ok.injEq] at h
    subst h
    simp [Json.keys]

theorem buildRequest_shape {config : AdyenConfig} {request request' : Json}
    {http : HttpRequest} (h : buildRequest config request = .ok (http, request')) :
    (request' = request ∨
      setProp request "merchantAccount" (.str config.merchantAccount) = .ok request') ∧
    http = httpRequestOf config request' := by
  cases hma : getProp (some request) "merchantAccount" with
  | error e => simp [buildRequest, bind, Except.bind, hma] at h
  | ok ma =>
    obtain ⟨h1, h2⟩ := buildRequest_eq config request ma hma
    cases ht : truthy ma with
    | true =>
      rw [h1 ht] at h
      simp only [Except.ok.injEq, Prod.mk.injEq] at h
      exact ⟨Or.inl h.2.symm, by rw [← h.1, ← h.2]⟩
    | false =>
      obtain ⟨r, hr, hb⟩ := h2 ht
      rw [hb] at h
      simp only [Except.ok.injEq, Prod.mk.injEq] at h
      obtain ⟨ha, hb'⟩ := h
      subst ha hb'
      exact ⟨Or.inr hr, rfl⟩

/-- C18 (amended): for every url and request object, `callAdyen` returns `{ request, response }`
whatever the HTTP call does. When `buildRequest` throws (a `null` request), `request` is the
object given and `response` the serialized error. Otherwise `request` is the object given as
`buildRequest` leaves it, unchanged or with `merchantAccount` set, and `response` is the error
of the HTTP call when `fetch` or `response.json()` throws, the parsed response body without
its `additionalData` when the body is parsed, and the serialized error when the `delete` on
the body throws. `buildRequest` leaves a truthy `merchantAccount` as it is and sets the
configured account exactly when the `merchantAccount` of the request is falsy: absent, `null`,
`false`, `0` or the empty string. -/
theorem callAdyen_resolves (serializeError : JsError → Json) (config : AdyenConfig)
    (fetch : String → HttpRequest → FetchOutcome) (url : String) (request : Json) :
    (∃ request' response,
      callAdyen serializeError config fetch url request = .ok (request', response)) ∧
    (∀ e, buildRequest config request = .error e →
      callAdyen serializeError config fetch url request = .ok (request, serializeError e)) ∧
    (∀ http request', buildRequest config request = .ok (http, request') →
      (request' = request ∨
        setProp request "merchantAccount" (.str config.merchantAccount) = .ok request') ∧
      http = httpRequestOf config request' ∧
      (∀ error, fetch url http = .rejected error →
        callAdyen serializeError config fetch url request = .ok (request', error)) ∧
      (∀ body stripped, fetch url http = .resolved body →
        deleteProp body "additionalData" = .ok stripped →
        callAdyen serializeError config fetch url request = .ok (request', stripped) ∧
          "additionalData" ∉ stripped.keys) ∧
      (∀ body e, fetch url http = .resolved body →
        deleteProp body "additionalData" = .error e →
        callAdyen serializeError config fetch url request
          = .ok (request', serializeError e))) ∧
    (∀ merchantAccount, getProp (some request) "merchantAccount" = .ok merchantAccount →
      (truthy merchantAccount = true →
        buildRequest config request = .ok (httpRequestOf config request, request)) ∧
      (truthy merchantAccount = false →
        ∃ request', setProp request "merchantAccount" (.str config.merchantAccount)
            = .ok request' ∧
          buildRequest config request = .ok (httpRequestOf config request', request'))) ∧
    (∀ members, request = .obj members → truthy (lookupKey "merchantAccount" members) = false →
      ∃ http members', buildRequest config request = .ok (http, .obj members') ∧
        lookupKey "merchantAccount" members' = some (.str config.merchantAccount)) := by
  have herr : ∀ e, buildRequest config request = .error e →
      callAdyen serializeError config fetch url request = .ok (request, serializeError e) := by
    intro e he
    simp only [callAdyen, fetchAsync, he]
  have hok : ∀ http request', buildRequest config request = .ok (http, request') →
      (∀ error, fetch url http = .rejected error →
        callAdyen serializeError config fetch url request = .ok (request', error)) ∧
      (∀ body stripped, fetch url http = .resolved body →
        deleteProp body "additionalData" = .ok stripped →
        callAdyen serializeError config fetch url request = .ok (request', stripped) ∧
          "additionalData" ∉ stripped.keys) ∧
      (∀ body e, fetch url http = .resolved body →
        deleteProp body "additionalData" = .error e →
        callAdyen serializeError config fetch url request
          = .ok (request', serializeError e)) := by
    intro http request' hb
    refine ⟨?_, ?_, ?_⟩
    · intro error hf
      simp only [callAdyen, fetchAsync, hb, hf]
    · intro body stripped hf hd
      exact ⟨by simp only [callAdyen, fetchAsync, hb, hf, hd], deleteProp_keys hd⟩
    · intro body e hf hd
      simp only [callAdyen, fetchAsync, hb, hf, hd]
  refine ⟨?_, herr, ?_, fun ma h => buildRequest_eq config request ma h, ?_⟩
  · cases hb : buildRequest config request with
    | error e => exact ⟨_, _, herr e hb⟩
    | ok r =>
      obtain ⟨http, request'⟩ := r
      obtain ⟨h1, h2, h3⟩ := hok http request' hb
      cases hf : fetch url http with
      | rejected error => exact ⟨_, _, h1 error hf⟩
      | resolved body =>
        cases hd : deleteProp body "additionalData" with
        | error e => exact ⟨_, _, h3 body e hf hd⟩
        | ok stripped => exact ⟨_, _, (h2 body stripped hf hd).1⟩
  · intro http request' hb
    obtain ⟨hs1, hs2⟩ := buildRequest_shape hb
    exact ⟨hs1, hs2, hok http request' hb⟩
  · intro members hreq hfalsy
    subst hreq
    obtain ⟨_, h2⟩ := buildRequest_eq config (.obj members) _ (getProp_obj_ok members _)
    obtain ⟨r, hr, hb⟩ := h2 hfalsy
    simp only [setProp, Except.ok.injEq] at hr
    subst hr
    exact ⟨_, _, hb, lookupKey_setMember _ _ _⟩

/-- C18 (counterexample): a request that supplies the empty string as `merchantAccount` leaves
`buildRequest` with the configured account in its place. -/
theorem supplied_merchant_account_overridden :
    buildRequest sampleConfig (.obj [("merchantAccount", .str ""), ("reference", .num 7)])
      = .ok (httpRequestOf sampleConfig
          (.obj [("merchantAccount", .str "Acct"), ("reference", .num 7)]),
        .obj [("merchantAccount", .str "Acct"), ("reference", .num 7)]) := rfl

/-- Witness of C18 (amended): the provider answers with a body that carries `additionalData`;
the response is the body without it, the request has the configured account set. -/
theorem callAdyen_resolves_witness :
    callAdyen (fun _ => .null) sampleConfig
        (fun _ _ => .resolved (.obj [("resultCode", .str "Authorised"),
          ("additionalData", .obj [("cardSummary", .str "1111")])]))
        "https://adyen.test/payments" (.obj [("reference", .num 7)])
      = .ok (.obj [("reference", .num 7), ("merchantAccount", .str "Acct")],
          .obj [("resultCode", .str "Authorised")]) ∧
    "additionalData" ∉ (Json.obj [("resultCode", .str "Authorised")]).keys :=
  ((callAdyen_resolves (fun _ => .null) sampleConfig
      (fun _ _ => .resolved (.obj [("resultCode", .str "Authorised"),
        ("additionalData", .obj [("cardSummary", .str "1111")])]))
      "https://adyen.test/payments" (.obj [("reference", .num 7)])).2.2.1
    (httpRequestOf sampleConfig (.obj [("reference", .num 7), ("merchantAccount", .str "Acct")]))
    (.obj [("reference", .num 7), ("merchantAccount", .str "Acct")]) (by rfl)).2.2.2.1
    (.obj [("resultCode", .str "Authorised"),
      ("additionalData", .obj [("cardSummary", .str "1111")])])
    (.obj [("resultCode", .str "Authorised")]) rfl (by rfl)

/-- C17: when the stored request parses and `makePayment` returns the pair `request`,
`response` (and, for a payment without a truthy key, `request.reference.toString()` returns),
`execute` returns the action list that starts with the `addInterfaceInteraction` action and
the set-custom-field action for the response, then holds the `setKey` action exactly when the
key of the payment is falsy, with the string form of `request.reference` as key, and ends with
the add-transaction action exactly when `createAddTransactionActionByResponse` returns one. -/
theorem execute_actions {α : Type} (jsonParse : String → Except JsError Json)
    (serializeError : JsError → Json) (config : AdyenConfig) (packageJson : PackageJson)
    (fetch : String → HttpRequest → FetchOutcome) (pU : PaymentUtils α) (c : Constants)
    (paymentObject : PaymentObject) (makePaymentRequestObj request response : Json)
    (hparse : jsonParse paymentObject.makePaymentRequest = .ok makePaymentRequestObj)
    (hpair : makePayment serializeError config packageJson fetch makePaymentRequestObj
      = .ok (request, response))
    (hreference : truthy paymentObject.key = false →
      ∃ reference key, getProp (some request) "reference" = .ok reference ∧
        toStringMethod reference = .ok key) :
    ∃ actions, execute jsonParse serializeError config packageJson fetch pU c paymentObject
        = .ok actions ∧
      (truthy paymentObject.key = true →
        actions = [.built (pU.createAddInterfaceInteractionAction request response
              c.CTP_INTERACTION_TYPE_MAKE_PAYMENT),
            .built (pU.createSetCustomFieldAction c.CTP_CUSTOM_FIELD_MAKE_PAYMENT_RESPONSE
              response)]
          ++ ((pU.createAddTransactionActionByResponse paymentObject.centAmount
              paymentObject.currencyCode response).toList.map .built)) ∧
      (truthy paymentObject.key = false →
        ∃ reference key, getProp (some request) "reference" = .ok reference ∧
          toStringMethod reference = .ok key ∧
          actions = [.built (pU.createAddInterfaceInteractionAction request response
                c.CTP_INTERACTION_TYPE_MAKE_PAYMENT),
              .built (pU.createSetCustomFieldAction c.CTP_CUSTOM_FIELD_MAKE_PAYMENT_RESPONSE
                response),
              .setKey key]
            ++ ((pU.createAddTransactionActionByResponse paymentObject.centAmount
                paymentObject.currencyCode response).toList.map .built)) := by
  unfold execute
  simp only [bind, Except.bind, hparse, hpair, pure, Except.pure]
  cases hkey : truthy paymentObject.key with
  | true =>
    simp only [Bool.not_true, Bool.false_eq_true, if_false]
    cases pU.createAddTransactionActionByResponse paymentObject.centAmount
        paymentObject.currencyCode response with
    | none => exact ⟨_, rfl, fun _ => by simp, fun h => by simp at h⟩
    | some a => exact ⟨_, rfl, fun _ => by simp, fun h => by simp at h⟩
  | false =>
    obtain ⟨reference, key, href, hstr⟩ := hreference hkey
    simp only [Bool.not_false, if_true, href, hstr]
    cases pU.createAddTransactionActionByResponse paymentObject.centAmount
        paymentObject.currencyCode response with
    | none =>
      exact ⟨_, rfl, fun h => by simp at h, fun _ => ⟨reference, key, rfl, hstr, by simp⟩⟩
    | some a =>
      exact ⟨_, rfl, fun h => by simp at h, fun _ => ⟨reference, key, rfl, hstr, by simp⟩⟩

/-- Witness of C17: a payment without a key whose stored request has the reference 7; the
provider answers with an empty object. -/
theorem execute_actions_witness :
    ∃ actions, execute (fun _ => .ok (.obj [("reference", .num 7)])) (fun _ => .null)
        sampleConfig samplePackage (fun _ _ => .resolved (.obj [])) namedUtils ⟨"i", "f"⟩
        ⟨none, "", some (.num 100), some (.str "EUR")⟩ = .ok actions ∧
      actions = [.built "addInterfaceInteraction", .built "setCustomField", .setKey "7",
        .built "addTransaction"] := by
  obtain ⟨actions, h, _, h2⟩ := execute_actions (fun _ => .ok (.obj [("reference", .num 7)]))
    (fun _ => .null) sampleConfig samplePackage (fun _ _ => .resolved (.obj [])) namedUtils
    ⟨"i", "f"⟩ ⟨none, "", some (.num 100), some (.str "EUR")⟩
    (.obj [("reference", .num 7)])
    (.obj [("reference", .num 7),
      ("applicationInfo", .obj [("merchantApplication",
          .obj [("name", .str "ext"), ("version", .str "1.0.0")]),
        ("externalPlatform",
          .obj [("name", .str "commercetools"), ("integrator", .str "author")])]),
      ("merchantAccount", .str "Acct")])
    (.obj []) rfl (by rfl) (fun _ => ⟨some (.num 7), "7", rfl, rfl⟩)
  obtain ⟨reference, key, href, hstr, hacts⟩ := h2 rfl
  refine ⟨actions, h, ?_⟩
  cases href
  cases hstr
  rw [hacts]
  rfl

/-- C11 (failing input): the first write fails with an error that carries no response body;
`updatePaymentWithRepeater` ends after that write with the `TypeError` of `err.body.statusCode`
(line 53), not with the error of line 54 that names the id of the payment. -/
theorem bodyless_write_failure_raises_type_error :
    updatePaymentWithRepeater stateRankCompare (fun _ => 0) sampleAdyenEvents emptyPayment
        reportNotification bodylessClient
      = some ⟨.error .typeError,
          [.update "id1" 1 [loggingAction 0 "report_available" reportNotification]]⟩ := by
  rfl

mutual
theorem jsToString_error : ∀ (v : Json) (e : JsError),
    jsToString v = .error e → e = .typeError
  | .null, e, h => by simp [jsToString] at h
  | .bool true, e, h => by simp [jsToString] at h
  | .bool false, e, h => by simp [jsToString] at h
  | .num _, e, h => by simp [jsToString] at h
  | .str _, e, h => by simp [jsToString] at h
  | .arr xs, e, h => jsJoin_error xs e (by simpa only [jsToString] using h)
  | .obj kvs, e, h => by
    simp only [jsToString] at h
    split at h
    · cases h; rfl
    · cases h
theorem jsJoin_error : ∀ (xs : List Json) (e : JsError),
    jsJoin xs = .error e → e = .typeError
  | [], e, h => by simp [jsJoin] at h
  | [x], e, h => by
    cases x with
    | null => simp [jsJoin] at h
    | _ => exact jsToString_error _ e (by simpa only [jsJoin] using h)
  | x :: y :: rest, e, h => by
    have ih := jsJoin_error (y :: rest)
    have ihx := jsToString_error x
    cases x with
    | null =>
      simp only [jsJoin] at h
      split at h
      · cases h
      · rename_i e2 he2; cases h; exact ih _ he2
    | _ =>
      simp only [jsJoin] at h
      split at h
      · rename_i e1 he1; cases h; exact ihx _ he1
      · split at h
        · cases h
        · rename_i e2 he2; cases h; exact ih _ he2
end
/-- C13 (counterexample): the notification has no `NotificationRequestItem`, hence no
`NotificationRequestItem.merchantReference`, and an own property whose name is the whole
dotted path: the handler looks a payment up under the key `"zz"` and, the payment found, the
run ends with a `TypeError`. And a notification whose reference is an object with an own
`toString` member, the lookup answered with a 404: the run ends with a `TypeError`. -/
theorem dotted_key_is_looked_up :
    safeProp (some (.obj [("NotificationRequestItem.merchantReference", .str "zz")]))
        "NotificationRequestItem" = none ∧
    processNotification false (fun _ => some .null) stateRankCompare (fun _ => 0)
        sampleAdyenEvents (.obj [("NotificationRequestItem.merchantReference", .str "zz")])
        ⟨acceptingClient, .ok emptyPayment⟩
      = some ⟨.error .typeError, [.str "zz"], []⟩ ∧
    processNotification false (fun _ => some .null) stateRankCompare (fun _ => 0)
        sampleAdyenEvents
        (.obj [("NotificationRequestItem",
          .obj [("merchantReference", .obj [("toString", .num 1)])])])
        ⟨acceptingClient, .error ⟨some 404, none⟩⟩
      = some ⟨.error .typeError, [.obj [("toString", .num 1)]], []⟩ :=
  ⟨rfl, by rfl, by rfl⟩

/-- C13 (amended): the reference of a notification is what `_.get` reads: the value of the
own property named `NotificationRequestItem.merchantReference` when the notification has one,
otherwise the value at the path, and `null` when that is missing or the notification is no
object. A notification whose reference is `null` is processed without an error, without a
lookup and without a write. When the lookup by key is answered with a 404 the run ends
without a write, and without an error when the reference has a string form. When the
signature check passes, the reference is not `null` and the lookup fails with another
status, the run ends with an error, after the lookup and without a write: the error of line
192 when the reference has a string form, the `TypeError` of the template otherwise. -/
theorem skipped_notifications (enableHmacSignature : Bool)
    (validateHmacSignature : Json → JsValue)
    (compareTransactionStates : String → Option String → Int) (now : Nat → Nat)
    (adyenEvents : List AdyenEvent) (notification : Json) (ctpClient : NotificationClient) :
    (∀ kvs, notification = .obj kvs →
      lodashGet (some notification) ["NotificationRequestItem", "merchantReference"] .null
        = match lookupKey "NotificationRequestItem.merchantReference" kvs with
          | some v => v
          | none =>
            match safeProp (lookupKey "NotificationRequestItem" kvs) "merchantReference" with
            | some v => v
            | none => .null) ∧
    ((∀ kvs, notification ≠ .obj kvs) →
      lodashGet (some notification) ["NotificationRequestItem", "merchantReference"] .null
        = .null) ∧
    (lodashGet (some notification) ["NotificationRequestItem", "merchantReference"] .null
        = .null →
      processNotification enableHmacSignature validateHmacSignature compareTransactionStates
        now adyenEvents notification ctpClient = some ⟨.ok (), [], []⟩) ∧
    (∀ err, ctpClient.fetchByKey = .error err → err.statusCode = some 404 →
      ∃ run, processNotification enableHmacSignature validateHmacSignature
          compareTransactionStates now adyenEvents notification ctpClient = some run ∧
        run.calls = [] ∧ run.lookups.length ≤ 1 ∧
        (run.outcome = .ok () ∨ run.outcome = .error .typeError) ∧
        (∀ text, jsToString (lodashGet (some notification)
            ["NotificationRequestItem", "merchantReference"] .null) = .ok text →
          run.outcome = .ok ())) ∧
    (∀ err, (enableHmacSignature && truthy (validateHmacSignature notification)) = false →
      lodashGet (some notification) ["NotificationRequestItem", "merchantReference"] .null
        ≠ .null →
      ctpClient.fetchByKey = .error err → err.statusCode ≠ some 404 →
      processNotification enableHmacSignature validateHmacSignature compareTransactionStates
        now adyenEvents notification ctpClient
        = some ⟨.error
            (match jsToString (lodashGet (some notification)
                ["NotificationRequestItem", "merchantReference"] .null) with
              | .ok text => .fetchFailed text
              | .error e => e),
          [lodashGet (some notification) ["NotificationRequestItem", "merchantReference"]
            .null], []⟩) := by
  refine ⟨?_, ?_, ?_, ?_, ?_⟩
  · intro kvs hkvs
    subst hkvs
    have hpath : ".".intercalate ["NotificationRequestItem", "merchantReference"]
        = "NotificationRequestItem.merchantReference" := by rfl
    cases hdot : lookupKey "NotificationRequestItem.merchantReference" kvs with
    | some v =>
      simp only [lodashGet, hpath, hasMember, hdot, Option.isSome, if_true, List.foldl,
        safeProp]
    | none =>
      simp only [lodashGet, hpath, hasMember, hdot, Option.isSome, Bool.false_eq_true,
        if_false, List.foldl, safeProp]
  · intro hshape
    cases notification with
    | obj kvs => exact absurd rfl (hshape kvs)
    | _ => rfl
  · intro href
    unfold processNotification
    split
    · rfl
    · simp only [href, strictEq, if_true]
  · intro err hfetch h404
    unfold processNotification
    split
    · exact ⟨_, rfl, rfl, by simp, Or.inl rfl, fun _ _ => rfl⟩
    · simp only []
      split
      · exact ⟨_, rfl, rfl, by simp, Or.inl rfl, fun _ _ => rfl⟩
      · simp only [getPaymentByMerchantReference, hfetch, h404, if_true]
        cases hs : jsToString (lodashGet (some notification)
            ["NotificationRequestItem", "merchantReference"] .null) with
        | ok text => exact ⟨_, rfl, rfl, by simp, Or.inl rfl, fun _ _ => rfl⟩
        | error e =>
          exact ⟨_, rfl, rfl, by simp,
            Or.inr (congrArg Except.error (jsToString_error _ _ hs)),
            fun text h => by cases h⟩
  · intro err hhmac href hfetch h404
    have hne : ¬ strictEq (some (lodashGet (some notification)
        ["NotificationRequestItem", "merchantReference"] .null)) (some .null) = true :=
      fun h => href ((strictEq_null _).1 h)
    cases hs : jsToString (lodashGet (some notification)
        ["NotificationRequestItem", "merchantReference"] .null) with
    | ok text =>
      simp only [processNotification, hhmac, Bool.false_eq_true, if_false, hne,
        getPaymentByMerchantReference, hfetch, h404, hs]
    | error e =>
      simp only [processNotification, hhmac, Bool.false_eq_true, if_false, hne,
        getPaymentByMerchantReference, hfetch, h404, hs]

/-- Witness of C13: a notification without a merchant reference, and `referencedNotification`
with the lookup answered 404 and 500. -/
theorem skipped_notifications_witness :
    processNotification true (fun _ => some .null) stateRankCompare (fun _ => 0)
        sampleAdyenEvents reportNotification ⟨acceptingClient, .ok emptyPayment⟩
      = some ⟨.ok (), [], []⟩ ∧
    (∃ run, processNotification true (fun _ => some .null) stateRankCompare (fun _ => 0)
          sampleAdyenEvents referencedNotification
          ⟨acceptingClient, .error ⟨some 404, none⟩⟩ = some run ∧
        run.calls = [] ∧ run.lookups.length ≤ 1 ∧
        (run.outcome = .ok () ∨ run.outcome = .error .typeError) ∧
        (∀ text, jsToString (lodashGet (some referencedNotification)
            ["NotificationRequestItem", "merchantReference"] .null) = .ok text →
          run.outcome = .ok ())) ∧
    processNotification true (fun _ => some .null) stateRankCompare (fun _ => 0)
        sampleAdyenEvents referencedNotification ⟨acceptingClient, .error ⟨some 500, none⟩⟩
      = some ⟨.error (.fetchFailed "k"), [.str "k"], []⟩ :=
  ⟨(skipped_notifications true (fun _ => some .null) stateRankCompare (fun _ => 0)
      sampleAdyenEvents reportNotification ⟨acceptingClient, .ok emptyPayment⟩).2.2.1 rfl,
   (skipped_notifications true (fun _ => some .null) stateRankCompare (fun _ => 0)
      sampleAdyenEvents referencedNotification
      ⟨acceptingClient, .error ⟨some 404, none⟩⟩).2.2.2.1 ⟨some 404, none⟩ rfl rfl,
   (skipped_notifications true (fun _ => some .null) stateRankCompare (fun _ => 0)
      sampleAdyenEvents referencedNotification
      ⟨acceptingClient, .error ⟨some 500, none⟩⟩).2.2.2.2 ⟨some 500, none⟩ rfl
      (by show Json.str "k" ≠ Json.null; intro h; cases h) rfl (by decide)⟩

theorem MapState.start_inv {limit n : Nat} {st : MapState} {rest : List Nat} {x : Nat}
    (hb : st.inFlight.length < limit)
    (hcount : st.settled.length + st.inFlight.length = st.started.length)
    (hperm : (st.started ++ (rest ++ [x])).Perm (List.range n))
    (hsub : ∀ i ∈ st.inFlight, i ∈ st.started)
    (hcover : ∀ i ∈ st.started, i ∈ st.settled ∨ i ∈ st.inFlight) :
    MapInv limit n
      { inFlight := st.inFlight ++ [x], queue := rest, started := st.started ++ [x],
        settled := st.settled } := by
  refine ⟨?_, ?_, ?_, ?_, ?_⟩
  · simp only [List.length_append, List.length_singleton]; omega
  · simp only [List.length_append, List.length_singleton]; omega
  · refine List.Perm.trans ?_ hperm
    simp only [List.append_assoc]
    exact List.Perm.append_left _ List.perm_append_comm
  · intro i hi
    simp only [List.mem_append, List.mem_singleton] at hi ⊢
    rcases hi with hi | hi
    · exact Or.inl (hsub i hi)
    · exact Or.inr hi
  · intro i hi
    simp only [List.mem_append, List.mem_singleton] at hi ⊢
    rcases hi with hi | hi
    · rcases hcover i hi with h1 | h1
      · exact Or.inl h1
      · exact Or.inr (Or.inl h1)
    · exact Or.inr (Or.inr hi)

theorem MapState.offer_inv {limit k : Nat} {st : MapState} (h : MapInv limit k st)
    (hfull : st.Saturated limit) :
    MapInv limit (k + 1) (st.offer limit k) ∧ (st.offer limit k).Saturated limit := by
  unfold MapState.offer
  by_cases hc : limit ≤ st.inFlight.length
  · simp only [hc, if_true]
    refine ⟨⟨h.bound, h.count, ?_, h.sub, h.cover⟩, fun _ => hc⟩
    rw [List.range_succ, ← List.append_assoc]
    exact h.perm.append_right [k]
  · simp only [hc, if_false]
    have hq : st.queue = [] := by
      by_contra hne
      exact hc (hfull hne)
    refine ⟨?_, fun hne => absurd hq hne⟩
    have hperm : (st.started ++ ([] ++ [k])).Perm (List.range (k + 1)) := by
      have := h.perm
      rw [hq, List.append_nil] at this
      rw [List.range_succ, List.nil_append]
      exact this.append_right [k]
    have := @MapState.start_inv limit (k + 1) st [] k (by omega) h.count hperm h.sub h.cover
    rw [hq]
    exact this

theorem MapState.init_inv (limit : Nat) : ∀ n,
    MapInv limit n ((List.range n).foldl (MapState.offer limit) ⟨[], [], [], []⟩) ∧
      ((List.range n).foldl (MapState.offer limit) ⟨[], [], [], []⟩).Saturated limit
  | 0 => ⟨⟨Nat.zero_le _, rfl, List.Perm.refl _, fun _ h => h, fun _ h => Or.inl h⟩,
      fun h => absurd rfl h⟩
  | n + 1 => by
    rw [List.range_succ, List.foldl_append]
    exact MapState.offer_inv (MapState.init_inv limit n).1 (MapState.init_inv limit n).2

theorem MapState.drainQueue_inv {limit n : Nat} : ∀ (fuel : Nat) (st : MapState),
    MapInv limit n st → st.queue.length ≤ fuel →
    MapInv limit n (st.drainQueue limit fuel) ∧ (st.drainQueue limit fuel).Saturated limit ∧
      (st.drainQueue limit fuel).settled = st.settled
  | 0, st, h, hlen => by
    have hq : st.queue = [] := List.length_eq_zero.1 (Nat.le_zero.1 hlen)
    exact ⟨h, fun hne => absurd hq hne, rfl⟩
  | fuel + 1, st, h, hlen => by
    unfold MapState.drainQueue
    cases hlast : st.queue.getLast? with
    | none =>
      have hq : st.queue = [] := List.getLast?_eq_none_iff.1 hlast
      exact ⟨h, fun hne => absurd hq hne, rfl⟩
    | some x =>
      simp only []
      by_cases hc : st.inFlight.length < limit
      · simp only [hc, if_true]
        obtain ⟨ys, hys⟩ := List.getLast?_eq_some_iff.1 hlast
        have hdrop : st.queue.dropLast = ys := by rw [hys, List.dropLast_concat]
        have hstep : MapState.offer limit { st with queue := st.queue.dropLast } x
            = { inFlight := st.inFlight ++ [x], queue := ys, started := st.started ++ [x],
                settled := st.settled } := by
          simp only [MapState.offer, Nat.not_le.2 hc, if_false, hdrop]
        rw [hstep]
        have hinv := @MapState.start_inv limit n st ys x hc h.count
          (by rw [← hys]; exact h.perm) h.sub h.cover
        have hlen2 : ys.length ≤ fuel := by
          have : st.queue.length = ys.length + 1 := by rw [hys]; simp
          omega
        exact MapState.drainQueue_inv fuel _ hinv hlen2
      · simp only [hc, if_false]
        exact ⟨h, fun _ => Nat.not_lt.1 hc, trivial⟩

theorem MapState.settle_inv {limit n : Nat} {st : MapState} {i : Nat}
    (h : MapInv limit n st) (hi : i ∈ st.inFlight) : MapInv limit n (st.settle i) := by
  have hlen : (st.inFlight.erase i).length = st.inFlight.length - 1 :=
    List.length_erase_of_mem hi
  have hpos : 0 < st.inFlight.length := List.length_pos_of_mem hi
  refine ⟨?_, ?_, h.perm, ?_, ?_⟩
  · show (st.inFlight.erase i).length ≤ limit
    have := h.bound
    omega
  · show (st.settled ++ [i]).length + (st.inFlight.erase i).length = st.started.length
    have := h.count
    simp only [List.length_append, List.length_singleton]
    omega
  · intro j hj
    exact h.sub j (List.mem_of_mem_erase hj)
  · intro j hj
    show j ∈ st.settled ++ [i] ∨ j ∈ st.inFlight.erase i
    by_cases hji : j = i
    · exact Or.inl (by simp [hji])
    · rcases h.cover j hj with h1 | h1
      · exact Or.inl (List.mem_append_left _ h1)
      · exact Or.inr ((List.mem_erase_of_ne hji).2 h1)

theorem settlesNext_mem {settleOrder inFlight : List Nat} {i : Nat}
    (h : settlesNext settleOrder inFlight = some i) : i ∈ inFlight := by
  unfold settlesNext at h
  split at h
  · rename_i j hj
    cases h
    have := List.find?_some hj
    simpa using this
  · exact List.mem_of_mem_head? h

theorem settlesNext_none {settleOrder inFlight : List Nat}
    (h : settlesNext settleOrder inFlight = none) : inFlight = [] := by
  unfold settlesNext at h
  split at h
  · cases h
  · exact List.head?_eq_none_iff.1 h

theorem MapInv.started_length {limit n : Nat} {st : MapState} (h : MapInv limit n st) :
    st.started.length + st.queue.length = n := by
  have := h.perm.length_eq
  simpa using this

theorem MapInv.lt_of_mem_started {limit n : Nat} {st : MapState} (h : MapInv limit n st)
    {i : Nat} (hi : i ∈ st.started) : i < n :=
  List.mem_range.1 ((h.perm.mem_iff).1 (List.mem_append_left _ hi))

theorem MapInv.queue_not_started {limit n : Nat} {st : MapState} (h : MapInv limit n st)
    {j : Nat} (hj : j ∈ st.queue) : j ∉ st.started ∧ j < n := by
  have hnodup : (st.started ++ st.queue).Nodup := (h.perm.nodup_iff).2 (List.nodup_range n)
  refine ⟨fun hs => ?_, List.mem_range.1 ((h.perm.mem_iff).1 (List.mem_append_right _ hj))⟩
  exact (List.nodup_append.1 hnodup).2.2 hs hj
theorem MapState.init_settled (limit : Nat) : ∀ n,
    ((List.range n).foldl (MapState.offer limit) ⟨[], [], [], []⟩).settled = []
  | 0 => rfl
  | n + 1 => by
    rw [List.range_succ, List.foldl_append]
    simp only [List.foldl, MapState.offer]
    split
    · exact MapState.init_settled limit n
    · exact MapState.init_settled limit n

theorem MapState.init_started (limit : Nat) : ∀ n,
    ((List.range n).foldl (MapState.offer limit) ⟨[], [], [], []⟩).inFlight
        = List.range (min n limit) ∧
      ((List.range n).foldl (MapState.offer limit) ⟨[], [], [], []⟩).started
        = List.range (min n limit)
  | 0 => by simp
  | n + 1 => by
    obtain ⟨h1, h2⟩ := MapState.init_started limit n
    rw [List.range_succ, List.foldl_append]
    simp only [List.foldl, MapState.offer]
    by_cases hc : limit ≤ n
    · have hlen : limit ≤ ((List.range n).foldl (MapState.offer limit)
          ⟨[], [], [], []⟩).inFlight.length := by
        rw [h1, List.length_range]
        omega
      rw [if_pos hlen]
      simp only [h1, h2]
      rw [Nat.min_eq_right hc, Nat.min_eq_right (by omega)]
      exact ⟨rfl, rfl⟩
    · have hlen : ¬ limit ≤ ((List.range n).foldl (MapState.offer limit)
          ⟨[], [], [], []⟩).inFlight.length := by
        rw [h1, List.length_range]
        omega
      rw [if_neg hlen]
      simp only [h1, h2]
      rw [Nat.min_eq_left (by omega), Nat.min_eq_left (by omega), List.range_succ]
      exact ⟨rfl, rfl⟩

theorem processNotification_returns (enableHmacSignature : Bool)
    (validateHmacSignature : Json → JsValue) (cmp : String → Option String → Int)
    (now : Nat → Nat) (adyenEvents : List AdyenEvent) (notification : Json)
    (ctpClient : NotificationClient) :
    ∃ run, processNotification enableHmacSignature validateHmacSignature cmp now adyenEvents
      notification ctpClient = some run := by
  unfold processNotification
  split
  · exact ⟨_, rfl⟩
  · simp only []
    split
    · exact ⟨_, rfl⟩
    · split
      · exact ⟨_, rfl⟩
      · split
        · exact ⟨_, rfl⟩
        · exact ⟨_, rfl⟩
      · rename_i payment _
        obtain ⟨run, hrun, _, _⟩ := updateLoop_bound cmp now ctpClient.toCtpClient maxRetry
          (maxRetry + 1)
          { currentPayment := payment, currentVersion := payment.version, retryCount := 0,
            notification := notification, adyenEvents := adyenEvents, calls := [] }
          (Nat.zero_le _) (by simp)
        simp only [updatePaymentWithRepeater, hrun, Option.map]
        exact ⟨_, rfl⟩

theorem mapperRun_returns (enableHmacSignature : Bool)
    (validateHmacSignature : Json → JsValue) (cmp : String → Option String → Int)
    (envs : Nat → MapperEnv) (notifications : List Json) (i : Nat)
    (hi : i < notifications.length) :
    ∃ run, mapperRun enableHmacSignature validateHmacSignature cmp envs notifications i
      = some run := by
  unfold mapperRun
  rw [List.getElem?_eq_getElem hi]
  exact processNotification_returns _ _ _ _ _ _ _

theorem promiseMapLoop_spec {limit n : Nat} (hl : 1 ≤ limit)
    (mapper : Nat → Option NotificationRun) (settleOrder : List Nat)
    (hm : ∀ i, i < n → ∃ run, mapper i = some run) :
    ∀ (fuel : Nat) (st : MapState) (states : List MapState),
      MapInv limit n st → st.Saturated limit → (∀ j ∈ st.settled, Fulfils mapper j) →
      (∀ s ∈ states, s.inFlight.length ≤ limit) → states.getLast? = some st →
      n + 1 ≤ st.settled.length + fuel →
      ∃ batch, promiseMapLoop limit mapper settleOrder n fuel st states = some batch ∧
        (∀ s ∈ batch.states, s.inFlight.length ≤ limit) ∧
        batch.states.getLast? = some batch.final ∧
        MapInv limit n batch.final ∧
        (batch.outcome = .ok () →
          n ≤ batch.final.settled.length ∧ ∀ j ∈ batch.final.settled, Fulfils mapper j) ∧
        (∀ e, batch.outcome = .error e →
          ∃ pre i run, batch.final.settled = pre ++ [i] ∧ i < n ∧ mapper i = some run ∧
            run.outcome = .error e ∧ ∀ j ∈ pre, Fulfils mapper j) ∧
        ∃ more, batch.states = states ++ more
  | 0, st, states, hinv, _, _, _, _, hfuel => by
    have h1 := hinv.count
    have h2 := hinv.started_length
    omega
  | fuel + 1, st, states, hinv, hsat, hdone, hstates, hlast, hfuel => by
    unfold promiseMapLoop
    by_cases hend : n ≤ st.settled.length
    · simp only [hend, if_true]
      exact ⟨_, rfl, hstates, hlast, hinv, fun _ => ⟨hend, hdone⟩, (fun e he => by cases he),
        [], (List.append_nil _).symm⟩
    · simp only [hend, if_false]
      cases hnext : settlesNext settleOrder st.inFlight with
      | none =>
        exfalso
        have hempty := settlesNext_none hnext
        have hq : st.queue = [] := by
          by_contra hne
          have := hsat hne
          rw [hempty] at this
          simp at this
          omega
        have h1 := hinv.count
        have h2 := hinv.started_length
        rw [hempty] at h1
        rw [hq] at h2
        simp at h1 h2
        omega
      | some i =>
        have hi := settlesNext_mem hnext
        have hin : i < n := hinv.lt_of_mem_started (hinv.sub i hi)
        obtain ⟨run, hrun⟩ := hm i hin
        have hsettle := MapState.settle_inv hinv hi
        simp only [hrun]
        cases hout : run.outcome with
        | error e =>
          simp only []
          refine ⟨_, rfl, ?_, by simp, hsettle, (fun h => by cases h), ?_, ?_⟩
          · intro s hs
            rcases List.mem_append.1 hs with h1 | h1
            · exact hstates s h1
            · rw [List.mem_singleton.1 h1]
              exact hsettle.bound
          · intro e2 he2
            cases he2
            exact ⟨st.settled, i, run, rfl, hin, hrun, hout, hdone⟩
          · exact ⟨_, rfl⟩
        | ok u =>
          simp only []
          obtain ⟨hd1, hd2, hd3⟩ := MapState.drainQueue_inv (st.settle i).queue.length
            (st.settle i) hsettle (Nat.le_refl _)
          have ih := promiseMapLoop_spec hl mapper settleOrder hm fuel
            ((st.settle i).drainQueue limit (st.settle i).queue.length)
            (states ++ [(st.settle i).drainQueue limit (st.settle i).queue.length]) hd1 hd2
          have hrec : ∃ batch, promiseMapLoop limit mapper settleOrder n fuel
                ((st.settle i).drainQueue limit (st.settle i).queue.length)
                (states ++ [(st.settle i).drainQueue limit (st.settle i).queue.length])
                = some batch ∧
              (∀ s ∈ batch.states, s.inFlight.length ≤ limit) ∧
              batch.states.getLast? = some batch.final ∧
              MapInv limit n batch.final ∧
              (batch.outcome = .ok () →
                n ≤ batch.final.settled.length ∧
                  ∀ j ∈ batch.final.settled, Fulfils mapper j) ∧
              (∀ e, batch.outcome = .error e →
                ∃ pre i run, batch.final.settled = pre ++ [i] ∧ i < n ∧
                  mapper i = some run ∧ run.outcome = .error e ∧
                  ∀ j ∈ pre, Fulfils mapper j) ∧
              ∃ more, batch.states
                = (states ++ [(st.settle i).drainQueue limit (st.settle i).queue.length])
                  ++ more := by
            refine ih ?_ ?_ (by simp) ?_
            · rw [hd3]
              intro j hj
              rcases List.mem_append.1 hj with h1 | h1
              · exact hdone j h1
              · rw [List.mem_singleton.1 h1]
                exact ⟨run, hrun, by cases u; exact hout⟩
            · intro s hs
              rcases List.mem_append.1 hs with h1 | h1
              · exact hstates s h1
              · rw [List.mem_singleton.1 h1]
                exact hd1.bound
            · rw [hd3]
              show n + 1 ≤ (st.settled ++ [i]).length + fuel
              simp only [List.length_append, List.length_singleton]
              omega
          obtain ⟨batch, hb, h1, h2, h3, h4, h5, more, hmore⟩ := hrec
          exact ⟨batch, hb, h1, h2, h3, h4, h5, _, by rw [hmore, List.append_assoc]⟩

/-- C12 (amended): `processNotifications` ends for every batch; it begins with the calls of
`processNotification` for the first 10 notifications (for all of a smaller batch) and never
has more than 10 calls in flight. It completes without an error exactly when every
notification of the batch is processed without an error, and then every call has ended. When
a call fails, `processNotifications` fails as a whole with the error of the call that fails
first: every call that ended before it ended without an error, the notifications queued at
that moment are never begun, and no per-notification outcomes are returned. -/
theorem batch_fails_as_a_whole (enableHmacSignature : Bool)
    (validateHmacSignature : Json → JsValue)
    (compareTransactionStates : String → Option String → Int) (envs : Nat → MapperEnv)
    (settleOrder : List Nat) (notifications : List Json) :
    ∃ batch,
      processNotifications enableHmacSignature validateHmacSignature compareTransactionStates
        envs settleOrder notifications = some batch ∧
      (∀ st ∈ batch.states, st.inFlight.length ≤ 10) ∧
      (∃ first, batch.states.head? = some first ∧
        first.started = List.range (min notifications.length 10) ∧
        first.inFlight = first.started) ∧
      batch.states.getLast? = some batch.final ∧
      (batch.outcome = .ok () ↔
        ∀ i, i < notifications.length →
          ∃ run, mapperRun enableHmacSignature validateHmacSignature compareTransactionStates
            envs notifications i = some run ∧ run.outcome = .ok ()) ∧
      (batch.outcome = .ok () → ∀ i, i < notifications.length → i ∈ batch.final.settled) ∧
      (∀ e, batch.outcome = .error e →
        ∃ pre i run, batch.final.settled = pre ++ [i] ∧ i < notifications.length ∧
          mapperRun enableHmacSignature validateHmacSignature compareTransactionStates envs
            notifications i = some run ∧
          run.outcome = .error e ∧
          (∀ j ∈ pre, ∃ r, mapperRun enableHmacSignature validateHmacSignature
            compareTransactionStates envs notifications j = some r ∧ r.outcome = .ok ()) ∧
          ∀ j ∈ batch.final.queue, j ∉ batch.final.started ∧ j < notifications.length) := by
  obtain ⟨hinit, hsat⟩ := MapState.init_inv concurrency notifications.length
  obtain ⟨batch, hbatch, hstates, hlast, hinv, hok, herr, more, hmore⟩ :=
    @promiseMapLoop_spec concurrency notifications.length (by decide)
      (mapperRun enableHmacSignature validateHmacSignature compareTransactionStates envs
        notifications) settleOrder
      (fun i hi => mapperRun_returns _ _ _ _ _ i hi)
      (notifications.length + 1)
      ((List.range notifications.length).foldl (MapState.offer concurrency) ⟨[], [], [], []⟩)
      [(List.range notifications.length).foldl (MapState.offer concurrency) ⟨[], [], [], []⟩]
      hinit hsat
      (fun j hj => by
        rw [MapState.init_settled] at hj
        cases hj)
      (fun s hs => by rw [List.mem_singleton.1 hs]; exact hinit.bound)
      rfl (by omega)
  have hall : batch.outcome = .ok () → ∀ i, i < notifications.length →
      i ∈ batch.final.settled := by
    intro h i hi
    obtain ⟨hn, _⟩ := hok h
    have h1 := hinv.count
    have h2 := hinv.started_length
    have hfl : batch.final.inFlight = [] := List.length_eq_zero.1 (by omega)
    have hq : batch.final.queue = [] := List.length_eq_zero.1 (by omega)
    have hmem : i ∈ batch.final.started := by
      have := (hinv.perm.mem_iff).2 (List.mem_range.2 hi)
      rw [hq, List.append_nil] at this
      exact this
    rcases hinv.cover i hmem with h3 | h3
    · exact h3
    · rw [hfl] at h3
      cases h3
  obtain ⟨hfl, hst⟩ := MapState.init_started concurrency notifications.length
  refine ⟨batch, hbatch, hstates, ⟨_, by rw [hmore]; rfl, hst, hfl.trans hst.symm⟩, hlast,
    ⟨fun h i hi => (hok h).2 i (hall h i hi), ?_⟩, hall, ?_⟩
  · intro h
    cases hout : batch.outcome with
    | ok u => cases u; rfl
    | error e =>
      obtain ⟨pre, i, run, _, hi, hrun, he, _⟩ := herr e hout
      obtain ⟨r, hr, hrok⟩ := h i hi
      rw [hrun] at hr
      cases hr
      rw [he] at hrok
      cases hrok
  · intro e he
    obtain ⟨pre, i, run, hset, hi, hrun, hout, hpre⟩ := herr e he
    exact ⟨pre, i, run, hset, hi, hrun, hout, hpre, fun j hj => hinv.queue_not_started hj⟩

/-- C12 (counterexample): a batch of twelve notifications, the write for the first answered
with a 500 before any other call ends, the eleven others such that their processing ends
without an error: `processNotifications` fails as a whole with the error of the first, the
notifications of index 10 and 11 are never begun, and no outcome of another notification is
returned. -/
theorem batch_not_isolated :
    ∃ batch, processNotifications false (fun _ => some .null) stateRankCompare batchEnvs [0]
        (List.replicate 12 referencedNotification) = some batch ∧
      batch.outcome = .error (.unexpectedError "id1") ∧
      batch.final.started = [0, 1, 2, 3, 4, 5, 6, 7, 8, 9] ∧
      batch.final.settled = [0] ∧
      batch.final.queue = [10, 11] ∧
      (List.range 12).map (fun i => (mapperRun false (fun _ => some .null) stateRankCompare
          batchEnvs (List.replicate 12 referencedNotification) i).map
            (fun run => run.outcome))
        = some (.error (.unexpectedError "id1")) :: List.replicate 11 (some (.ok ())) :=
  ⟨_, by rfl, rfl, rfl, rfl, rfl, by rfl⟩

end AdyenIntegration
